import Mathlib

/-!
Verification development for the lead-delivery pipeline
(`codewithot/lead-delivery-app`).

The TypeScript sources are shallowly embedded: pure helper functions become
Lean functions; the Prisma-backed delivery engine becomes explicit state
passing over a `DB` value together with a trace of outbound destination-API
calls; HTTP round-trips against the external GoHighLevel CRM are represented
by environment parameters giving the outcome of each request.  JavaScript
`null`/`undefined` both become `Option.none`; JavaScript string truthiness
(`""` is falsy) is modelled explicitly by `strTruthy`/`jsStrFalsy`.
-/

namespace LeadDelivery

/-- JavaScript truthiness of a nullable string: `null`, `undefined` and `""`
are falsy, every other string is truthy. -/
def strTruthy : Option String → Bool
  | some s => s ≠ ""
  | none => false

/-- JavaScript falsiness of a nullable string (`!x`). -/
def jsStrFalsy (o : Option String) : Bool := ¬ strTruthy o

/-- JavaScript `a || b` on nullable strings: `a` unless `a` is falsy. -/
def jsOrStr : Option String → Option String → Option String
  | some s, b => if s = "" then b else some s
  | none, b => b

/-- JavaScript truthiness of a nullable integer id: `null`, `undefined` and
`0` are falsy (`if (property.ownerId)`). -/
def optNatTruthy : Option Nat → Bool
  | some n => n ≠ 0
  | none => false

/-- ASCII whitespace characters recognised by the JavaScript `\s` class and
`String.prototype.trim` (the embedding restricts to the ASCII subset). -/
def isJsWs (c : Char) : Bool :=
  c = ' ' ∨ c = '\t' ∨ c = '\n' ∨ c = '\r' ∨ c = Char.ofNat 11 ∨ c = Char.ofNat 12

/-- One pass of `replace(/\s+/g, " ")`: every maximal whitespace run becomes a
single space.  The boolean argument records whether the previous character was
whitespace. -/
def collapseWsAux : List Char → Bool → List Char
  | [], _ => []
  | c :: rest, prevWs =>
    if isJsWs c then
      (if prevWs then [] else [' ']) ++ collapseWsAux rest true
    else
      c :: collapseWsAux rest false

/-- JavaScript `s.replace(/\s+/g, " ")`. -/
def collapseWs (s : String) : String := String.mk (collapseWsAux s.data false)

/-- JavaScript `s.trim()` (ASCII whitespace). -/
def jsTrim (s : String) : String :=
  String.mk (((s.data.dropWhile isJsWs).reverse.dropWhile isJsWs).reverse)

/-- JavaScript `toLowerCase`, restricted to ASCII case mapping (the sources
only case-fold ASCII vocabulary). -/
def strToLower (s : String) : String := String.mk (s.data.map Char.toLower)

/-- JavaScript `toUpperCase`, restricted to ASCII case mapping. -/
def strToUpper (s : String) : String := String.mk (s.data.map Char.toUpper)

/-- Character-list prefix test. -/
def charsPre : List Char → List Char → Bool
  | [], _ => true
  | _ :: _, [] => false
  | p :: ps, c :: cs => (p = c) && charsPre ps cs

/-- Character-list substring test. -/
def charsSub (pat : List Char) : List Char → Bool
  | [] => pat.isEmpty
  | c :: cs => charsPre pat (c :: cs) || charsSub pat cs

/-- JavaScript `String.prototype.includes`. -/
def strHasSub (s pat : String) : Bool := charsSub pat.data s.data

/-- A JavaScript number: `NaN`, the two infinities, or a finite value.  A
finite value `fin m p` denotes the exact decimal `m / 10 ^ p`, kept
canonical (no trailing factor of ten in `m` while `p > 0`), which is
adequate for the sources: they only parse, compare and copy numbers. -/
inductive JsNum where
  | nan : JsNum
  | inf : JsNum
  | negInf : JsNum
  | fin (m : Int) (p : Nat) : JsNum
deriving Repr, DecidableEq

/-- Whether a JavaScript number is `NaN` (`isNaN(n)` on a number). -/
def JsNum.isNaN : JsNum → Bool
  | .nan => true
  | _ => false

/-- Canonicalise a scaled decimal: strip common factors of ten. -/
def canonDec (m : Int) : Nat → Int × Nat
  | 0 => (m, 0)
  | p + 1 => if m % 10 = 0 then canonDec (m / 10) p else (m, p + 1)

/-- Canonical finite JavaScript number `m / 10 ^ p`. -/
def JsNum.finMk (m : Int) (p : Nat) : JsNum :=
  .fin (canonDec m p).1 (canonDec m p).2

/-- JavaScript `n < k` for an integer literal `k`: false for `NaN` and `+∞`. -/
def jsLtNum (n : JsNum) (k : Int) : Bool :=
  match n with
  | .nan => false
  | .inf => false
  | .negInf => true
  | .fin m p => m < k * 10 ^ p

/-- JavaScript `n <= k` for an integer literal `k`: false for `NaN` and `+∞`. -/
def jsLeNum (n : JsNum) (k : Int) : Bool :=
  match n with
  | .nan => false
  | .inf => false
  | .negInf => true
  | .fin m p => m ≤ k * 10 ^ p

/-- Numeric value of a list of ASCII digits. -/
def digitsVal (ds : List Char) : Nat :=
  ds.foldl (fun a c => a * 10 + (c.toNat - 48)) 0

/-- Decimal-literal part of ECMAScript `ToNumber` on a (sign-stripped,
trimmed) character list: digits, optional fraction, optional well-formed
exponent, nothing left over; otherwise `NaN`.  `Infinity` is recognised. -/
def parseDecRest (sign : Int) (l : List Char) : JsNum :=
  if l = "Infinity".data then (if sign < 0 then .negInf else .inf)
  else
    let intDigits := l.takeWhile Char.isDigit
    let rest1 := l.dropWhile Char.isDigit
    let frac := match rest1 with
      | '.' :: t => t.takeWhile Char.isDigit
      | _ => []
    let rest2 := match rest1 with
      | '.' :: t => t.dropWhile Char.isDigit
      | _ => rest1
    if intDigits = [] ∧ frac = [] then .nan
    else
      let m0 : Int := (digitsVal intDigits * 10 ^ frac.length + digitsVal frac : Nat)
      match rest2 with
      | [] => JsNum.finMk (sign * m0) frac.length
      | e :: t =>
        if e = 'e' ∨ e = 'E' then
          let esign : Int := match t with
            | '-' :: _ => -1
            | _ => 1
          let t' := match t with
            | '+' :: u => u
            | '-' :: u => u
            | u => u
          let edigits := t'.takeWhile Char.isDigit
          let rest3 := t'.dropWhile Char.isDigit
          if edigits = [] ∨ rest3 ≠ [] then .nan
          else
            let ev : Int := esign * (digitsVal edigits : Int)
            if 0 ≤ ev then JsNum.finMk (sign * m0 * (10 ^ ev.toNat : Nat)) frac.length
            else JsNum.finMk (sign * m0) (frac.length + (-ev).toNat)
        else .nan

/-- Value of a digit character in a given radix, if valid. -/
def radixDigit (radix : Nat) (c : Char) : Option Nat :=
  let v :=
    if '0' ≤ c ∧ c ≤ '9' then some (c.toNat - 48)
    else if 'a' ≤ c ∧ c ≤ 'f' then some (c.toNat - 87)
    else if 'A' ≤ c ∧ c ≤ 'F' then some (c.toNat - 55)
    else none
  match v with
  | some n => if n < radix then some n else none
  | none => none

/-- Non-decimal integer literal (`0x…`, `0o…`, `0b…`) of ECMAScript
`ToNumber`; `NaN` when a digit is invalid or absent. -/
def parseRadixRest (radix : Nat) (l : List Char) : JsNum :=
  if l = [] then .nan
  else
    let step : Option Nat → Char → Option Nat := fun acc c =>
      match acc, radixDigit radix c with
      | some a, some d => some (a * radix + d)
      | _, _ => none
    match l.foldl step (some 0) with
    | some n => .fin (n : Int) 0
    | none => .nan

/-- ECMAScript `ToNumber` applied to a string (`Number(s)`), restricted to
ASCII whitespace and the decimal / hex / octal / binary grammars. -/
def jsStringToNumber (s : String) : JsNum :=
  let l := ((s.data.dropWhile isJsWs).reverse.dropWhile isJsWs).reverse
  match l with
  | [] => .fin 0 0
  | '+' :: rest => parseDecRest 1 rest
  | '-' :: rest => parseDecRest (-1) rest
  | '0' :: 'x' :: rest => parseRadixRest 16 rest
  | '0' :: 'X' :: rest => parseRadixRest 16 rest
  | '0' :: 'o' :: rest => parseRadixRest 8 rest
  | '0' :: 'O' :: rest => parseRadixRest 8 rest
  | '0' :: 'b' :: rest => parseRadixRest 2 rest
  | '0' :: 'B' :: rest => parseRadixRest 2 rest
  | _ => parseDecRest 1 l

/-- Longest-prefix decimal parse of ECMAScript `parseFloat`: leading
whitespace skipped, optional sign, `Infinity` or digits with optional
fraction, optional exponent (ignored when malformed), trailing characters
ignored; `NaN` when no numeric prefix exists. -/
def jsParseFloat (s : String) : JsNum :=
  let l0 := s.data.dropWhile isJsWs
  let sign : Int := match l0 with
    | '-' :: _ => -1
    | _ => 1
  let l := match l0 with
    | '+' :: t => t
    | '-' :: t => t
    | t => t
  if "Infinity".data.isPrefixOf l then (if sign < 0 then .negInf else .inf)
  else
    let intDigits := l.takeWhile Char.isDigit
    let rest1 := l.dropWhile Char.isDigit
    let frac := match rest1 with
      | '.' :: t => t.takeWhile Char.isDigit
      | _ => []
    let rest2 := match rest1 with
      | '.' :: t => t.dropWhile Char.isDigit
      | _ => rest1
    if intDigits = [] ∧ frac = [] then .nan
    else
      let m0 : Int := (digitsVal intDigits * 10 ^ frac.length + digitsVal frac : Nat)
      let expo : Int := match rest2 with
        | e :: t =>
          if e = 'e' ∨ e = 'E' then
            let esign : Int := match t with
              | '-' :: _ => -1
              | _ => 1
            let t' := match t with
              | '+' :: u => u
              | '-' :: u => u
              | u => u
            let edigits := t'.takeWhile Char.isDigit
            if edigits = [] then 0 else esign * (digitsVal edigits : Int)
          else 0
        | [] => 0
      if 0 ≤ expo then JsNum.finMk (sign * m0 * (10 ^ expo.toNat : Nat)) frac.length
      else JsNum.finMk (sign * m0) (frac.length + (-expo).toNat)

/-- Input domain of `toNumber` / `toFloat` / `normalizeHouseholdIncome`:
a string or a number, or `null`/`undefined` (the `Option.none` case). -/
abbrev StrOrNum := String ⊕ JsNum

/-- JavaScript `s.replace(/,/g, "")`. -/
def stripCommas (s : String) : String := String.mk (s.data.filter (· ≠ ','))

/-- JavaScript `s.replace(/[\$,]/g, "")`. -/
def stripDollarCommas (s : String) : String :=
  String.mk (s.data.filter (fun c => c ≠ '$' ∧ c ≠ ','))

/-- Embedding of `toNumber` (src/lib/helper.ts): `null`/`undefined`/`""`
give `null`; strings are comma-stripped and passed to `Number`; a `NaN`
result gives `null`. -/
def toNumber : Option StrOrNum → Option JsNum
  | none => none
  | some (.inl s) =>
    if s = "" then none
    else
      let n := jsStringToNumber (stripCommas s)
      if n.isNaN then none else some n
  | some (.inr n) => if n.isNaN then none else some n

/-- Embedding of `toFloat` (src/lib/helper.ts): like `toNumber` but via
`parseFloat`. -/
def toFloat : Option StrOrNum → Option JsNum
  | none => none
  | some (.inl s) =>
    if s = "" then none
    else
      let n := jsParseFloat (stripCommas s)
      if n.isNaN then none else some n
  | some (.inr n) => if n.isNaN then none else some n

/-- Embedding of `normalizeYesNo` (src/lib/helper.ts). -/
def normalizeYesNo (value : Option String) : Option String :=
  if jsStrFalsy value then none
  else
    let normalized := jsTrim (strToLower (value.getD ""))
    if ["yes", "true", "1"].contains normalized then some "Yes"
    else if ["no", "false", "0"].contains normalized then some "No"
    else none

/-- Embedding of `normalizeWorkingWithRealtor` (src/lib/helper.ts). -/
def normalizeWorkingWithRealtor (val : Option String) : String :=
  if jsStrFalsy val ∨ jsTrim (val.getD "") = "" then "No I am Not"
  else
    let lower := strToLower (jsTrim (val.getD ""))
    if ["no", "n"].contains lower then "No I am Not"
    else if ["yes", "y"].contains lower then "Yes, I am"
    else "No I am Not"

/-- Embedding of `normalizeMLSStatus` (src/lib/helper.ts). -/
def normalizeMLSStatus (raw : Option String) : Option String :=
  if jsStrFalsy raw then some "FALSE"
  else
    let val := strToLower (jsTrim (raw.getD ""))
    if ["", "off market", "offmarket", "pa"].contains val then some "FALSE"
    else some "TRUE"

/-- Embedding of `normalizeLiquidAssets` (src/lib/helper.ts). -/
def normalizeLiquidAssets (raw : Option String) : Option String :=
  if jsStrFalsy raw ∨ jsTrim (raw.getD "") = "" then none
  else
    let val := strToLower (jsTrim (raw.getD ""))
    if val = "yes" then some "Over $20k" else none

/-- Embedding of `normalizeHouseholdIncome` (src/lib/helper.ts): strings are
stripped of `$` and `,` and coerced with `Number`; `NaN` fails both the
`< 65000` and `<= 90000` comparisons and therefore lands in `"Above 90k"`. -/
def normalizeHouseholdIncome (value : Option StrOrNum) : Option String :=
  match value with
  | none => none
  | some v =>
    let numValue : JsNum := match v with
      | .inl s => jsStringToNumber (stripDollarCommas s)
      | .inr n => n
    if jsLtNum numValue 65000 then some "Below $65k"
    else if jsLeNum numValue 90000 then some "65k - 90k"
    else some "Above 90k"

/-- Embedding of `normalizeLoanType` (src/lib/helper.ts). -/
def normalizeLoanType (value : Option String) : Option String :=
  if jsStrFalsy value then none
  else
    let v := strToLower (collapseWs (jsTrim (value.getD "")))
    if v = "conventional" ∨ v = "conventional with pmi" ∨ v = "conventional\t" then
      some "conventional"
    else if v = "arm" ∨ strHasSub v "adjustable rate mortgage" ∨ charsPre "arm".data v.data then
      some "arm"
    else if v = "fha" ∨ v = "fha " then some "fha"
    else if v = "usda" then some "usda"
    else if v = "va" ∨ strHasSub v "veterans" ∨ strHasSub v "veterans administration"
        ∨ strHasSub v "veterans admin" then
      some "va"
    else if v = "building or construction" ∨ v = "building_or_construction"
        ∨ v = "construction" then
      some "building_or_construction"
    else if ["not available", "not_available", "n/a", "#n/a", "na", "unknown"].contains v then
      some "not_available"
    else none

/-- Embedding of `normalizedLoanType` (src/lib/helper.ts). -/
def normalizedLoanType (raw : Option String) : Option String :=
  if jsStrFalsy raw then none
  else
    let val := strToLower (jsTrim (raw.getD ""))
    if ["conventional", "conventional with pmi", "conventional\t"].contains val then
      some "Conventional"
    else if ["fha", "fha"].contains val then some "FHA"
    else if ["va", "veterans administration", "veterans administration"].contains val then
      some "VA"
    else if ["usda"].contains val then some "USDA"
    else if ["jumbo"].contains val then some "Jumbo"
    else none

/-- Embedding of `normalizePropertyType`'s lookup table (src/lib/helper.ts);
`none` values are the keys the source explicitly maps to `null`. -/
def propertyTypeMappings : List (String × Option String) :=
  [("single family", some "single_family"),
   ("single family residence", some "single_family"),
   ("single-family home", some "single_family"),
   ("sfr", some "single_family"),
   ("residential", some "single_family"),
   ("town home", some "town_home"),
   ("townhouse", some "town_home"),
   ("row house", some "town_home"),
   ("condominium / townhouse", some "town_home"),
   ("condo/townhouse", some "town_home"),
   ("condominium", some "condominium"),
   ("condominium ", some "condominium"),
   ("condo", some "condominium"),
   ("duplex", some "duplex"),
   ("duplex ", some "duplex"),
   ("triplex", some "triplex"),
   ("tri-plex", some "triplex"),
   ("quadplex", some "quadplex"),
   ("quad-plex", some "quadplex"),
   ("multi family", none),
   ("multi-family", none),
   ("multi-family 2-4 units", none),
   ("multi-family 5+ units", none),
   ("multi-family dwellings", none),
   ("apartment", none),
   ("apartments", none),
   ("commercial", none),
   ("commercial average", none),
   ("land", none),
   ("vacant land", none),
   ("mobile home", none),
   ("other", none),
   ("not available", none)]

/-- Own-property names of JavaScript `Object.prototype`.  A plain object
literal inherits these through its prototype chain, so indexing it with one
of them yields the inherited member (a function, or the prototype object
itself for `__proto__`) rather than `undefined`. -/
def objectProtoKeys : List String :=
  ["constructor", "hasOwnProperty", "isPrototypeOf", "propertyIsEnumerable",
   "toLocaleString", "toString", "valueOf", "__proto__", "__defineGetter__",
   "__defineSetter__", "__lookupGetter__", "__lookupSetter__"]

/-- Result of indexing a JavaScript object literal: an own entry's value, an
inherited `Object.prototype` member, or `undefined`.  An inherited member is
a function (or the prototype object itself), hence truthy and neither `null`
nor `undefined`: it escapes both `??` and `if (...)` guards. -/
inductive JsLookup (α : Type) where
  | own (v : α) : JsLookup α
  | protoMember (name : String) : JsLookup α
  | absent : JsLookup α
deriving DecidableEq

/-- Object-literal indexing `table[k]`: own entries first, then the
prototype chain. -/
def jsRecordGet {α : Type} (entries : List (String × α)) (k : String) : JsLookup α :=
  match entries.find? (fun e => e.1 = k) with
  | some e => .own e.2
  | none => if k ∈ objectProtoKeys then .protoMember k else .absent

/-- Runtime value produced by the object-literal-backed normalizers: a
string or `null`/`undefined` (the declared TypeScript domain), or a leaked
`Object.prototype` member — a non-string value outside the declared
domain. -/
inductive LookupOut where
  | str (s : String) : LookupOut
  | nullish : LookupOut
  | protoLeak (name : String) : LookupOut
deriving DecidableEq

/-- Embedding of `normalizePropertyType` (src/lib/helper.ts): table lookup on
the trimmed lower-cased input via `mappings[value] ?? null`.  The table is a
plain object literal, so the lookup walks the prototype chain: for a key
such as `"constructor"` it yields the inherited `Object.prototype` member,
which is neither `null` nor `undefined` and therefore escapes `?? null` and
is returned. -/
def normalizePropertyType (input : Option String) : LookupOut :=
  if jsStrFalsy input then .nullish
  else
    let value := strToLower (jsTrim (input.getD ""))
    match jsRecordGet propertyTypeMappings value with
    | .own (some s) => .str s
    | .own none => .nullish
    | .protoMember n => .protoLeak n
    | .absent => .nullish

/-- Embedding of `normalizeLeadSource` (src/lib/helper.ts). -/
def leadSourceOptions : List String :=
  ["Saw Sign", "On Zillow", "Redfin", "Home.com", "Facebook Marketplace", "Other"]

/-- Embedding of `normalizeLeadSource`: case-insensitive match against the
fixed option list. -/
def normalizeLeadSource (value : Option String) : Option String :=
  if jsStrFalsy value then none
  else leadSourceOptions.find? (fun opt => strToLower opt = strToLower (value.getD ""))

/-- Embedding of `normalizeFreeAndClear` (src/lib/helper.ts); the source
returns its `null`/`undefined` argument unchanged, both collapsed to
`none` here. -/
def normalizeFreeAndClear (value : Option (String ⊕ Bool)) : Option String :=
  match value with
  | none => none
  | some (.inr b) => if b then some "TRUE" else some "FALSE"
  | some (.inl s) =>
    let v := strToLower (jsTrim s)
    if v = "yes" ∨ v = "true" then some "TRUE"
    else if v = "no" ∨ v = "false" then some "FALSE"
    else none

/-- Tag-source splitter of `buildTags`: JavaScript
`String(src).split(/[,;\n\r]+/)` (runs of delimiters collapse; boundary
runs produce empty pieces, as in JavaScript `split`). -/
def isTagDelim (c : Char) : Bool := c = ',' ∨ c = ';' ∨ c = '\n' ∨ c = '\r'

/-- Splitter worker: `cur` is the current chunk (reversed), `inRun` records
whether the previous character was a delimiter (chunk already flushed). -/
def splitTagsAux : List Char → List Char → Bool → List String
  | [], cur, _ => [String.mk cur.reverse]
  | c :: rest, cur, false =>
    if isTagDelim c then String.mk cur.reverse :: splitTagsAux rest [] true
    else splitTagsAux rest (c :: cur) false
  | c :: rest, cur, true =>
    if isTagDelim c then splitTagsAux rest cur true
    else splitTagsAux rest [c] false

/-- JavaScript `String(src).split(/[,;\n\r]+/)`. -/
def splitTags (s : String) : List String := splitTagsAux s.data [] false

/-- Tag input of `buildTags`: a string, an array of strings, or
`null`/`undefined`. -/
abbrev TagSource := Option (String ⊕ List String)

/-- `normalizeSource` inside `buildTags` (src/lib/helper.ts): falsy sources
(including `""`) give `[]`; arrays pass through; plain strings are split on
`[,;\n\r]+`. -/
def normalizeTagSource : TagSource → List String
  | none => []
  | some (.inl s) => if s = "" then [] else splitTags s
  | some (.inr l) => l

/-- Insert-if-absent on the first-seen-casing map of `buildTags`: keys are
lower-cased trimmed tags, values keep the first-seen casing. -/
def tagMapAdd (m : List (String × String)) (t : String) : List (String × String) :=
  let key := strToLower (jsTrim t)
  if key = "" then m
  else if m.any (fun e => e.1 = key) then m
  else m ++ [(key, t)]

/-- Embedding of `buildTags` (src/lib/helper.ts): merge existing and new tag
sources, deduplicate case-insensitively preserving first-seen casing, and
guarantee the marker tag (default `"Seller"`) is present. -/
def buildTags (input : TagSource) (existingContactTags : TagSource)
    (tagToAdd : String := "Seller") : Option (List String) :=
  let inputArr := (normalizeTagSource input).map (fun s => jsTrim (collapseWs s))
  let existingArr := (normalizeTagSource existingContactTags).map (fun s => jsTrim (collapseWs s))
  let m := (existingArr ++ inputArr).foldl tagMapAdd []
  let addKey := strToLower (jsTrim tagToAdd)
  let m := if m.any (fun e => e.1 = addKey) then m else m ++ [(addKey, tagToAdd)]
  let result := (m.map (fun e => e.2)).map jsTrim
  if result.length ≠ 0 then some result else none

/-- Embedding of the `parkingMapping` lookup table (src/lib/helper.ts). -/
def parkingMapping : List (String × String) :=
  [("no", "No Parking"), ("No", "No Parking"), ("NO", "No Parking"),
   ("", "No Parking"), ("0", "No Parking"), ("None", "No Parking"),
   ("Unknown", "No Parking"),
   ("Garage - Attached", "Garage - Attached"),
   ("Garage Attached", "Garage - Attached"),
   ("Attached Garage", "Garage - Attached"),
   ("Garage, Attached", "Garage - Attached"),
   ("Garage Faces Front", "Garage - Attached"),
   ("Garage Faces Rear, Attached", "Garage - Attached"),
   ("Garage - Detached", "Garage - Detached"),
   ("Garage Detached", "Garage - Detached"),
   ("Garage, Detached", "Garage - Detached"),
   ("Driveway", "Driveway"),
   ("Private, Detached Carport", "Driveway"),
   ("Inside Entrance, Private, Driveway, Attached, Other", "Driveway"),
   ("On Street", "On Street"), ("On-street", "On Street"),
   ("On-Street", "On Street"), ("on street", "On Street"),
   ("Off Street", "Off Street"), ("Off-street", "Off Street"),
   ("Off-Street", "Off Street"),
   ("Parking Lot", "Parking Lot"), ("Unassigned, Parking Lot", "Parking Lot"),
   ("Carport", "Carport"), ("Other", "Other"), ("Yes", "Other"),
   ("Storage", "Other"), ("Garage Open", "Other"),
   ("Garage Door Opener", "Other"), ("Garage Basement", "Other"),
   ("Garage Attached On Street", "Other"),
   ("Inside Entrance, Attached,", "Other")]

/-- Lookup `parkingMapping[property.parkingType ?? ""] ?? "Other"` used in the
contact payload of the delivery engine.  `parkingMapping` is a plain object
literal and the key is used verbatim (not lower-cased), so any exact-case
`Object.prototype` member name (`"constructor"`, `"hasOwnProperty"`,
`"toString"`, …) yields the inherited member, which escapes `?? "Other"`. -/
def parkingLookup (v : Option String) : LookupOut :=
  match jsRecordGet parkingMapping (v.getD "") with
  | .own s => .str s
  | .protoMember n => .protoLeak n
  | .absent => .str "Other"

/-- Small alpha-3 to alpha-2 country table of src/lib/normalizeCountry.ts. -/
def ALPHA3_TO_ALPHA2 : List (String × String) :=
  [("USA", "US"), ("GBR", "GB"), ("CAN", "CA"), ("AUS", "AU"), ("DEU", "DE"),
   ("FRA", "FR"), ("ESP", "ES"), ("ITA", "IT"), ("MEX", "MX"), ("BRA", "BR"),
   ("CHN", "CN"), ("RUS", "RU"), ("IND", "IN"), ("JPN", "JP"), ("KOR", "KR"),
   ("ZAF", "ZA"), ("NLD", "NL"), ("CHE", "CH"), ("SWE", "SE"), ("NOR", "NO"),
   ("DNK", "DK"), ("BEL", "BE"), ("AUT", "AT"), ("POL", "PL"), ("TUR", "TR"),
   ("IRL", "IE"), ("NZL", "NZ"), ("SGP", "SG"), ("HKG", "HK"), ("TWN", "TW"),
   ("ARE", "AE"), ("SAU", "SA"), ("ARG", "AR"), ("COL", "CO"), ("CHL", "CL"),
   ("PRT", "PT"), ("GRC", "GR"), ("HUN", "HU")]

/-- Alias table of src/lib/normalizeCountry.ts (common names, local names,
misspellings, keyed lower-case). -/
def countryAliases : List (String × String) :=
  [("usa", "US"), ("us", "US"),
   ("united states", "US"), ("united states of america", "US"),
   ("america", "US"), ("estad os unidos", "US"), ("estados unidos", "US"),
   ("estados unidos de america", "US"), ("eeuu", "US"),
   ("uk", "GB"), ("united kingdom", "GB"), ("great britain", "GB"),
   ("england", "GB"), ("scotland", "GB"), ("wales", "GB"),
   ("northern ireland", "GB"), ("britain", "GB"), ("gb", "GB"),
   ("canada", "CA"), ("ca", "CA"),
   ("australia", "AU"), ("au", "AU"),
   ("germany", "DE"), ("deutschland", "DE"), ("de", "DE"),
   ("france", "FR"), ("fr", "FR"),
   ("spain", "ES"), ("españa", "ES"), ("es", "ES"),
   ("italy", "IT"), ("italia", "IT"), ("it", "IT"),
   ("mexico", "MX"), ("méxico", "MX"), ("mx", "MX"),
   ("china", "CN"), ("prc", "CN"), ("cn", "CN"),
   ("india", "IN"), ("bharat", "IN"), ("in", "IN"),
   ("japan", "JP"), ("nihon", "JP"), ("nippon", "JP"), ("jp", "JP"),
   ("south korea", "KR"), ("korea, republic of", "KR"), ("korea", "KR"),
   ("kr", "KR"),
   ("brazil", "BR"), ("brasil", "BR"), ("br", "BR"),
   ("russia", "RU"), ("russian federation", "RU"), ("ru", "RU"),
   ("netherlands", "NL"), ("holland", "NL"), ("nl", "NL"),
   ("sweden", "SE"), ("se", "SE"),
   ("norway", "NO"), ("no", "NO"),
   ("switzerland", "CH"), ("che", "CH"), ("ch", "CH"),
   ("turkey", "TR"), ("tr", "TR"),
   ("ireland", "IE"), ("ie", "IE"),
   ("south africa", "ZA"), ("za", "ZA")]

/-- Alias entries whose keys contain punctuation (`"u.s."`,
`"people's republic of china"`, apostrophe written via `Char.ofNat 39`).
The source keeps them in the table even though `_normalizeTextForMatch`
strips that punctuation from every lookup key, so they can never match;
they are reproduced verbatim for fidelity. -/
def countryAliasesPunct : List (String × String) :=
  [("u.s.", "US"), ("u.s.a.", "US"),
   ("people" ++ String.mk [Char.ofNat 39] ++ "s republic of china", "CN")]

/-- Alias lookup `ALIASES[key]` over the full table.  `ALIASES` is a plain
object literal, so an unmatched key that is an `Object.prototype` member
name yields the inherited member. -/
def aliasLookup (key : String) : JsLookup String :=
  jsRecordGet (countryAliases ++ countryAliasesPunct) key

/-- ASCII letter test (`[A-Za-z]`). -/
def isAsciiAlpha (c : Char) : Bool :=
  ('A' ≤ c ∧ c ≤ 'Z') ∨ ('a' ≤ c ∧ c ≤ 'z')

/-- Punctuation stripped by `_normalizeTextForMatch` (`[.,'`"]`). -/
def isCountryPunct (c : Char) : Bool :=
  c = '.' ∨ c = ',' ∨ c = Char.ofNat 39 ∨ c = Char.ofNat 96 ∨ c = '"'

/-- Dash-like characters `_normalizeTextForMatch` turns into spaces
(en/em dash, hyphen, slash, backslash). -/
def isCountryDash (c : Char) : Bool :=
  c = Char.ofNat 0x2013 ∨ c = Char.ofNat 0x2014 ∨ c = '-' ∨ c = '/' ∨ c = '\\'

/-- Embedding of `_normalizeTextForMatch` (src/lib/normalizeCountry.ts):
strip punctuation, turn dash runs into spaces, collapse whitespace, trim,
lower-case. -/
def normalizeTextForMatch (input : Option String) : String :=
  match input with
  | none => ""
  | some s =>
    if s = "" then ""
    else
      let s1 := (jsTrim s).data.filter (fun c => ¬ isCountryPunct c)
      let s2 := s1.map (fun c => if isCountryDash c then ' ' else c)
      strToLower (jsTrim (collapseWs (String.mk s2)))

/-- Generic run-collapsing splitter (JavaScript `split` on a
character-class `+` regex); same worker shape as `splitTagsAux`. -/
def splitRunsOnAux (d : Char → Bool) : List Char → List Char → Bool → List String
  | [], cur, _ => [String.mk cur.reverse]
  | c :: rest, cur, false =>
    if d c then String.mk cur.reverse :: splitRunsOnAux d rest [] true
    else splitRunsOnAux d rest (c :: cur) false
  | c :: rest, cur, true =>
    if d c then splitRunsOnAux d rest cur true
    else splitRunsOnAux d rest [c] false

/-- JavaScript `s.split(/…+/)` for a character class `d`. -/
def splitRunsOn (d : Char → Bool) (s : String) : List String :=
  splitRunsOnAux d s.data [] false

/-- Words of a normalised key (`key.split(/\s+/).filter(Boolean)`; the key
is whitespace-collapsed, so splitting on single spaces is exact). -/
def keyWords (key : String) : List String :=
  (splitRunsOn (fun c => c = ' ') key).filter (fun w => w ≠ "")

/-- Alpha-3 step of the word fallback, `if (ALPHA3_TO_ALPHA2[up])` on the
upper-cased word — an object-literal lookup; no `Object.prototype` member
name is all upper-case, so the inherited branch is unreachable here but is
kept for fidelity — falling through to `next` when the test is falsy. -/
def countryWordAlpha3 (kw : String) (next : LookupOut) : LookupOut :=
  match jsRecordGet ALPHA3_TO_ALPHA2 (strToUpper kw) with
  | .own c => if c = "" then next else .str c
  | .protoMember n => .protoLeak n
  | .absent => next

/-- Per-word fallback of `normalizeCountry`: `if (ALIASES[kw]) return
ALIASES[kw]` — a truthy own value and an inherited `Object.prototype`
member both pass the test and are returned — then the alpha-3 table on the
upper-cased word.  (The final two-letter check in the source is guarded by
the optional `i18n-iso-countries` library and is dead when the library is
absent.) -/
def countryWordLookup : List String → LookupOut
  | [] => .nullish
  | kw :: rest =>
    match aliasLookup kw with
    | .own c => if c = "" then countryWordAlpha3 kw (countryWordLookup rest) else .str c
    | .protoMember n => .protoLeak n
    | .absent => countryWordAlpha3 kw (countryWordLookup rest)

/-- Embedding of `normalizeCountry` (src/lib/normalizeCountry.ts) with the
optional `i18n-iso-countries` library absent (`countriesLib = null`), the
code path the source explicitly supports: two ASCII letters are accepted
upper-cased, three letters go through `if (ALPHA3_TO_ALPHA2[code3])`, then
`if (ALIASES[key]) return ALIASES[key]` on the normalised text, then the
word-by-word fallback.  The tables are plain object literals, so a key that
is an `Object.prototype` member name after lower-casing (`"constructor"`,
`"__proto__"`) hits the inherited member, which is truthy and is
returned. -/
def normalizeCountry (value : Option String) : LookupOut :=
  match value with
  | none => .nullish
  | some v =>
    let raw := jsTrim v
    if raw = "" then .nullish
    else
      let letters := raw.data.filter isAsciiAlpha
      if letters.length = 2 then .str (String.mk (letters.map Char.toUpper))
      else
        let step3 : Option LookupOut :=
          if letters.length = 3 then
            match jsRecordGet ALPHA3_TO_ALPHA2 (String.mk (letters.map Char.toUpper)) with
            | .own c => if c = "" then none else some (.str c)
            | .protoMember n => some (.protoLeak n)
            | .absent => none
          else none
        match step3 with
        | some r => r
        | none =>
          let key := normalizeTextForMatch (some raw)
          match aliasLookup key with
          | .own c => if c = "" then countryWordLookup (keyWords key) else .str c
          | .protoMember n => .protoLeak n
          | .absent => countryWordLookup (keyWords key)

/-- Range of `normalizeCountry` and its word fallback: `null`, a two-letter
code, or a leaked `Object.prototype` member. -/
def inCountryRange (r : LookupOut) : Prop :=
  r = .nullish ∨ (∃ s, r = .str s ∧ s.length = 2)
    ∨ (∃ n, r = .protoLeak n ∧ n ∈ objectProtoKeys)

/-- ASCII upper-case letter test. -/
def isUpperAlpha (c : Char) : Bool := 'A' ≤ c ∧ c ≤ 'Z'

/-- US ZIP / ZIP+4 matcher of `normalizePostalCode`:
`^(\d{5})(?:[-\s]?(\d{4}))?$` with the ZIP+4 rendered as `base-plus4`. -/
def usZipMatch (l : List Char) : Option String :=
  let first5 := l.take 5
  let rest := l.drop 5
  if first5.length = 5 ∧ first5.all Char.isDigit then
    match rest with
    | [] => some (String.mk first5)
    | c :: t =>
      let fourDigits := if c = '-' ∨ isJsWs c then t else rest
      if fourDigits.length = 4 ∧ fourDigits.all Char.isDigit then
        some (String.mk first5 ++ "-" ++ String.mk fourDigits)
      else none
  else none

/-- Canadian postal-code matcher: `^([A-Z]\d[A-Z])(\d[A-Z]\d)$` on the
whitespace-stripped input, rendered `ANA NAN`. -/
def caPostalMatch (l : List Char) : Option String :=
  match l with
  | [a, d1, b, d2, c, d3] =>
    if isUpperAlpha a ∧ d1.isDigit ∧ isUpperAlpha b ∧ d2.isDigit
        ∧ isUpperAlpha c ∧ d3.isDigit then
      some (String.mk [a, d1, b] ++ " " ++ String.mk [d2, c, d3])
    else none
  | _ => none

/-- UK postal-code matcher: `^([A-Z]{1,2}\d[A-Z\d]?\d[A-Z]{2})$` on the
whitespace-stripped input (existential over the quantifier choices, as
regex backtracking gives), rendered with a space before the last three
characters. -/
def gbCoreMatch (l : List Char) : Bool :=
  let alnum := fun (c : Char) => isUpperAlpha c ∨ c.isDigit
  match l with
  | [a, d1, d2, e1, e2] =>
    isUpperAlpha a ∧ d1.isDigit ∧ d2.isDigit ∧ isUpperAlpha e1 ∧ isUpperAlpha e2
  | [a, b, d1, d2, e1, e2] =>
    (isUpperAlpha a ∧ isUpperAlpha b ∧ d1.isDigit ∧ d2.isDigit
      ∧ isUpperAlpha e1 ∧ isUpperAlpha e2)
    ∨ (isUpperAlpha a ∧ b.isDigit ∧ alnum d1 ∧ d2.isDigit
      ∧ isUpperAlpha e1 ∧ isUpperAlpha e2)
  | [a, b, d1, x, d2, e1, e2] =>
    isUpperAlpha a ∧ isUpperAlpha b ∧ d1.isDigit ∧ alnum x ∧ d2.isDigit
      ∧ isUpperAlpha e1 ∧ isUpperAlpha e2
  | _ => false

/-- Embedding of `normalizePostalCode` (src/lib/normalizeCountry.ts):
country-specific validation and reformatting; unknown countries pass
through trimmed and upper-cased. -/
def normalizePostalCode (postalCode : Option String) (countryCode : String := "US") :
    Option String :=
  if jsStrFalsy postalCode then none
  else
    let pc := strToUpper (jsTrim (postalCode.getD ""))
    if countryCode = "US" then usZipMatch pc.data
    else if countryCode = "CA" then caPostalMatch (pc.data.filter (fun c => ¬ isJsWs c))
    else if countryCode = "GB" then
      let core := pc.data.filter (fun c => ¬ isJsWs c)
      if gbCoreMatch core then
        some (String.mk (core.take (core.length - 3)) ++ " "
          ++ String.mk (core.drop (core.length - 3)))
      else none
    else some pc

/-! ### Destination client (src/lib/helper.ts): search, relation creation -/

/-- Outcome of one duplicate-search HTTP round-trip: a resolved response
carrying the (possibly absent) `contact.id`, or a rejection carrying the
(possibly absent) `err.response.status`. -/
inductive SearchOutcome where
  | respOk (cid : Option String) : SearchOutcome
  | httpErr (status : Option Nat) : SearchOutcome
deriving Repr, DecidableEq

/-- Environment for one invocation of `findGhlContactByEmailOrPhone`: the
outcome each of the two duplicate searches would have. -/
structure ContactSearchEnv where
  emailSearch : SearchOutcome
  phoneSearch : SearchOutcome
deriving Repr, DecidableEq

/-- Which searches a `findGhlContactByEmailOrPhone` call performed, in
order. -/
inductive SearchStep where
  | byEmail : SearchStep
  | byPhone : SearchStep
deriving Repr, DecidableEq

/-- Branching of the inner `catch` blocks of `findGhlContactByEmailOrPhone`:
`404` and `422` fall through to the next search, `401`/`403` are re-thrown
(and the outer catch re-throws them again), every other status falls
through.  Returns `none` to continue, `some st` to abort with `st`. -/
def contactSearchErrStep (status : Option Nat) : Option (Option Nat) :=
  if status = some 404 then none
  else if status = some 422 then none
  else if status = some 401 ∨ status = some 403 then some status
  else none

/-- Embedding of `findGhlContactByEmailOrPhone` (src/lib/helper.ts): email
duplicate search first, then phone; a truthy `contact.id` returns
immediately; `Except.error` is the re-thrown auth failure.  The second
component lists the searches performed. -/
def findGhlContactByEmailOrPhone (email phone : Option String)
    (env : ContactSearchEnv) : Except (Option Nat) (Option String) × List SearchStep :=
  if ¬ strTruthy email ∧ ¬ strTruthy phone then (.ok none, [])
  else
    let afterEmail : Option (Except (Option Nat) (Option String)) :=
      if strTruthy email then
        match env.emailSearch with
        | .respOk cid => if strTruthy cid then some (.ok cid) else none
        | .httpErr st =>
          match contactSearchErrStep st with
          | some fatal => some (.error fatal)
          | none => none
      else none
    let emailSteps := if strTruthy email then [SearchStep.byEmail] else []
    match afterEmail with
    | some r => (r, emailSteps)
    | none =>
      let afterPhone : Option (Except (Option Nat) (Option String)) :=
        if strTruthy phone then
          match env.phoneSearch with
          | .respOk cid => if strTruthy cid then some (.ok cid) else none
          | .httpErr st =>
            match contactSearchErrStep st with
            | some fatal => some (.error fatal)
            | none => none
        else none
      let phoneSteps := if strTruthy phone then [SearchStep.byPhone] else []
      match afterPhone with
      | some r => (r, emailSteps ++ phoneSteps)
      | none => (.ok none, emailSteps ++ phoneSteps)

/-- Outcome of the custom-object record search of
`findGhlPropertyByAddress`: a resolved response with the id list of
`resp.data.records`, or a rejection with its status. -/
inductive PropSearchOutcome where
  | respOk (records : List (Option String)) : PropSearchOutcome
  | httpErr (status : Option Nat) : PropSearchOutcome
deriving Repr, DecidableEq

/-- Embedding of `findGhlPropertyByAddress` (src/lib/helper.ts): `null`
address short-circuits to not-found without a request; a first record with
truthy id is returned; `404`, `400`, `422` and any other non-auth status
give not-found; `401`/`403` re-throw. -/
def findGhlPropertyByAddress (address : Option String)
    (outcome : PropSearchOutcome) : Except (Option Nat) (Option String) :=
  if ¬ strTruthy address then .ok none
  else
    match outcome with
    | .respOk records =>
      match records with
      | r0 :: _ => if strTruthy r0 then .ok r0 else .ok none
      | [] => .ok none
    | .httpErr status =>
      if status = some 404 then .ok none
      else if status = some 400 then .ok none
      else if status = some 422 then .ok none
      else if status = some 401 ∨ status = some 403 then .error status
      else .ok none

/-- Error body of a rejected relation-creation request (`err.response.data`
with its `message` / `error` fields, when objects). -/
structure RelErrData where
  message : Option String
  errField : Option String
deriving Repr, DecidableEq

/-- Outcome of the `POST /associations/relations` round-trip. -/
inductive RelOutcome where
  | ok (status : Nat) : RelOutcome
  | errResp (status : Option Nat) (data : Option RelErrData) : RelOutcome
deriving Repr, DecidableEq

/-- Return value of `createRelationBetweenRecords`. -/
structure RelResult where
  success : Bool
  alreadyExists : Bool := false
deriving Repr, DecidableEq

/-- Embedding of `createRelationBetweenRecords` (src/lib/helper.ts): falsy
ids give `success=false`; `200`/`201` give `success=true`; a rejection with
a `400` status whose message contains "duplicate" gives `success=true`
(`alreadyExists`); other rejections give `success=false`.  A rejection
without response data hits `undefined.toString()` in the source and throws
a `TypeError` — the `Except.error` case. -/
def createRelationBetweenRecords (associationId firstRecordId secondRecordId : String)
    (outcome : RelOutcome) : Except Unit RelResult :=
  if associationId = "" ∨ firstRecordId = "" ∨ secondRecordId = "" then
    .ok { success := false }
  else
    match outcome with
    | .ok status =>
      if status = 201 ∨ status = 200 then .ok { success := true }
      else .ok { success := false }
    | .errResp status data =>
      match data with
      | none => .error ()
      | some d =>
        let message := strToLower ((jsOrStr d.message (jsOrStr d.errField (some ""))).getD "")
        let isDuplicate := status = some 400
          ∧ (strHasSub message "duplicate" ∨ strHasSub message "duplicate relation"
            ∨ strHasSub message "duplicate association")
        if isDuplicate then .ok { success := true, alreadyExists := true }
        else .ok { success := false }

/-- Relation store of the destination CRM, for the idempotency scenario:
creating an existing relation is rejected with an HTTP 400 duplicate
message, creating a new one succeeds with 201.  (Environment model of the
destination's documented behaviour, spec §4.3/§8; the CRM itself is not
repository code.) -/
structure CrmState where
  relations : List (String × String × String)
deriving Repr, DecidableEq

/-- One relation-creation request against the CRM model. -/
def crmCreateRelation (st : CrmState) (assocId a b : String) : RelOutcome × CrmState :=
  if (assocId, a, b) ∈ st.relations then
    (.errResp (some 400) (some { message := some "duplicate relation already exists", errField := none }), st)
  else
    (.ok 201, { relations := st.relations ++ [(assocId, a, b)] })

/-- Embedding of `ensureContactPropertyAssociation` (src/lib/helper.ts),
driven by the CRM model: skips on falsy ids or a missing association
definition (`assocId`, resolved by `getAssociationIdBetween` in the
source), otherwise calls `createRelationBetweenRecords`; every failure —
including the thrown `TypeError` case — is caught and logged, never
propagated.  The contact-name resolution of the source only feeds log
output and is omitted.  Returns the relation-step success (`none` when the
relation step was never reached). -/
def ensureContactPropertyAssociation (assocId : Option String)
    (contactGhlId propertyGhlId : String) (st : CrmState) :
    Option Bool × CrmState :=
  if contactGhlId = "" ∨ propertyGhlId = "" then (none, st)
  else
    match assocId with
    | none => (none, st)
    | some aid =>
      if aid = "" then (none, st)
      else
        let (outcome, st') := crmCreateRelation st aid contactGhlId propertyGhlId
        match createRelationBetweenRecords aid contactGhlId propertyGhlId outcome with
        | .ok r => (some r.success, st')
        | .error _ => (none, st')

/-! ### Rate limiter (src/lib/rateLimiter.ts) -/

/-- Embedding of the `ghlLimiter.on("failed", …)` handler: on an HTTP 429 it
returns a 60000 ms retry delay, otherwise `undefined`. -/
def ghlLimiterOnFailed (status : Option Nat) : Option Nat :=
  if status = some 429 then some 60000 else none

/-- Result of one attempt of a wrapped call. -/
inductive CallResult (α : Type) where
  | ok (v : α) : CallResult α
  | errStatus (status : Option Nat) : CallResult α
deriving Repr, DecidableEq

/-- Model of the Bottleneck library's documented `failed`-handler contract:
when a scheduled job fails and the handler returns a delay, the job is
retried after that delay; when it returns `undefined`, the error is
surfaced to the caller.  Input: the results successive attempts of the
wrapped call would produce.  Output: the result the caller observes and
the retry delays that were applied. -/
def bottleneckSchedule {α : Type} (onFailed : Option Nat → Option Nat) :
    List (CallResult α) → CallResult α × List Nat
  | [] => (.errStatus none, [])
  | r :: rest =>
    match r with
    | .ok v => (.ok v, [])
    | .errStatus s =>
      match onFailed s, rest with
      | some d, _ :: _ =>
        let (res, ds) := bottleneckSchedule onFailed rest
        (res, d :: ds)
      | some d, [] => (.errStatus s, [d])
      | none, _ => (.errStatus s, [])

/-! ### Worker manager (src/lib/workerManager.ts) and job enqueueing
(src/pages/api/ingest-complete.ts) -/

/-- Local `Job` tracking row (Prisma `Job` table; timestamps as abstract
ticks). -/
structure JobRow where
  id : String
  jobType : String
  status : String
  attempts : Nat
  maxAttempts : Nat := 3
  lastError : Option String
  startedAt : Option Nat
  finishedAt : Option Nat
  userId : String
deriving Repr, DecidableEq

/-- Result of one Delivery Engine invocation as seen by the worker. -/
inductive EngineOutcome where
  | success : EngineOutcome
  | failure (msg : String) : EngineOutcome
deriving Repr, DecidableEq

/-- Claim step of the worker handler: update an existing row to
`in_progress` incrementing `attempts`, or create a missing row with
`attempts = 1`. -/
def claimJobRow (queueJobId jobName payloadUserId : String)
    (existing : Option JobRow) (now : Nat) : JobRow :=
  match existing with
  | some row =>
    { row with status := "in_progress", startedAt := some now,
               attempts := row.attempts + 1 }
  | none =>
    { id := queueJobId, jobType := jobName, status := "in_progress",
      attempts := 1, lastError := none, startedAt := some now,
      finishedAt := none, userId := payloadUserId }

/-- Embedding of the worker's per-job handler (src/lib/workerManager.ts,
batched variant): claim, run the engine, then either mark `completed` with
a finish timestamp, or record the error, mark `failed` (upsert) and
re-throw.  The second component is the re-thrown error, `none` when the
handler returns normally. -/
def workerProcessJob (queueJobId jobName payloadUserId : String)
    (existing : Option JobRow) (outcome : EngineOutcome) (now : Nat) :
    JobRow × Option String :=
  let claimed := claimJobRow queueJobId jobName payloadUserId existing now
  match outcome with
  | .success =>
    ({ claimed with status := "completed", finishedAt := some now }, none)
  | .failure msg =>
    ({ claimed with status := "failed", lastError := some msg }, some msg)

/-- Queue send options of the job producer (src/pages/api/ingest-complete.ts). -/
structure SendOptions where
  retryLimit : Nat
  retryDelay : Nat
  retryBackoff : Bool
  expireInSeconds : Nat
deriving Repr, DecidableEq

/-- Options passed to `boss.send(JOB_TYPES.DELIVER_LEADS_BATCH, …)`. -/
def deliverLeadsBatchSendOptions : SendOptions :=
  { retryLimit := 3, retryDelay := 60, retryBackoff := true, expireInSeconds := 3600 }

/-! ### Delivery engine (src/lib/pushLeads.ts, multi-account variant)

The Prisma store becomes an explicit `DB` value; each outbound HTTP call
becomes a trace event whose outcome is supplied by a `GhlEnv` environment
keyed by destination-account index (0 is `GHL_ACCOUNTS[0]`, the primary).
Only the fields the engine's control flow reads are embedded; the ~80
payload fields feed the request bodies but never influence control flow or
local persistence.  The environment models completed HTTP round-trips:
auth failures (401/403), which abort the whole job by exception, are
covered by the `findGhlContactByEmailOrPhone` /
`findGhlPropertyByAddress` embeddings above. -/

/-- Local `Contact` row (fields read by the engine). -/
structure Contact where
  id : Nat
  email : Option String
  phone : Option String
  ghlContactId : Option String
  pushed : Bool
  tags : Option String
deriving Repr, DecidableEq

/-- Local `Property` row (fields read by the engine's control flow). -/
structure Property where
  id : Nat
  ownerId : Option Nat
  price : Int
  postalCode : Option String
  addressFull : Option String
  pushed : Bool
  ghlPropertyId : Option String
deriving Repr, DecidableEq

/-- Per-user filter settings (Prisma `UserSettings`). -/
structure UserSettings where
  zipCodes : List String
  priceMin : Option Int
  priceMax : Option Int
deriving Repr, DecidableEq

/-- The relational store visible to one job. -/
structure DB where
  contacts : List Contact
  properties : List Property
deriving Repr, DecidableEq

/-- `Number.MAX_SAFE_INTEGER`. -/
def maxSafeInteger : Int := 2 ^ 53 - 1

/-- Where-clause of the property selection query (src/lib/pushLeads.ts):
`price ∈ [priceMin ?? 0, priceMax ?? MAX_SAFE_INTEGER]`,
`postalCode ∈ zipCodes`, `pushed = false`. -/
def propertyMatches (s : UserSettings) (p : Property) : Bool :=
  ((s.priceMin.getD 0) ≤ p.price) && (p.price ≤ (s.priceMax.getD maxSafeInteger))
    && (match p.postalCode with
        | some pc => s.zipCodes.contains pc
        | none => false)
    && (p.pushed = false)

/-- A selected property with its included `owner` relation. -/
structure SelProp where
  prop : Property
  owner : Option Contact
deriving Repr, DecidableEq

/-- Contact-row lookup by id (Prisma `findUnique`). -/
def lookupContact (db : DB) (cid : Nat) : Option Contact :=
  db.contacts.find? (fun c => c.id = cid)

/-- The `findMany` of step 1: filter and include the owner. -/
def selectProperties (s : UserSettings) (db : DB) : List SelProp :=
  (db.properties.filter (propertyMatches s)).map
    (fun p => { prop := p, owner := p.ownerId.bind (lookupContact db) })

/-- JavaScript `Map.set`: replace in place if the key exists, else append. -/
def mapSet (m : List (Nat × Contact)) (k : Nat) (v : Contact) : List (Nat × Contact) :=
  if m.any (fun e => e.1 = k) then
    m.map (fun e => if e.1 = k then (k, v) else e)
  else m ++ [(k, v)]

/-- One iteration of the `contactsToPush` derivation: a property whose
included owner exists, is not yet pushed, and whose `ownerId` is truthy
contributes its owner under the `ownerId` key. -/
def ctpStep (m : List (Nat × Contact)) (sp : SelProp) : List (Nat × Contact) :=
  match sp.owner, sp.prop.ownerId with
  | some o, some oid =>
    if o.pushed = false ∧ oid ≠ 0 then mapSet m oid o else m
  | _, _ => m

/-- Step 2 of the engine: the `contactsToPush` map — one entry per distinct
truthy `ownerId` whose included owner exists and is not yet pushed, values
being the owner snapshots taken at selection time. -/
def contactsToPush (sel : List SelProp) : List (Nat × Contact) :=
  sel.foldl ctpStep []

/-- Response body of a record/contact creation, as probed by the engine
(`id`, `data.id`, `record.id`, `data.record.id`, `contact.id`). -/
structure RespData where
  id : Option String := none
  dataId : Option String := none
  recordId : Option String := none
  dataRecordId : Option String := none
  contactId : Option String := none
deriving Repr, DecidableEq

/-- Embedding of `extractGhlId` (src/lib/helper.ts): first truthy of the
probed locations. -/
def extractGhlId (d : RespData) : Option String :=
  jsOrStr d.id (jsOrStr d.dataId (jsOrStr d.recordId (jsOrStr d.dataRecordId d.contactId)))

/-- Outcome of a creation request: a resolved response (axios resolves 2xx)
or a rejection, which the engine catches and logs. -/
inductive CreateOutcome where
  | ok (status : Nat) (data : RespData) : CreateOutcome
  | err : CreateOutcome
deriving Repr, DecidableEq

/-- Destination-account configuration entry (`GHL_ACCOUNTS` element). -/
structure Account where
  name : String
  locationId : String
  privateToken : String
deriving Repr, DecidableEq

/-- The `GHL_ACCOUNTS` list as shipped: a single active account (the other
two entries are commented out in the source). -/
def GHL_ACCOUNTS : List Account :=
  [{ name := "Direct One Home Buyers", locationId := "3eqjaHp2WwPxvUWCV9Mb",
     privateToken := "pit-f6adc9b4-0de0-4911-a09b-ff57cb9b3a41" }]

/-- Environment giving each destination call's outcome, keyed by account
index; `findContact` abstracts the full `findGhlContactByEmailOrPhone`
result (found id or not). -/
structure GhlEnv where
  findContact : Nat → Option String → Option String → Option String
  findProperty : Nat → Option String → Option String
  createContact : Nat → Nat → CreateOutcome
  createProperty : Nat → Nat → CreateOutcome

/-- Destination API calls the engine issues (trace events). -/
inductive Event where
  | contactAttempt (accIdx contactId : Nat) : Event
  | searchContact (accIdx : Nat) (email phone : Option String) : Event
  | createContactReq (accIdx contactId : Nat) : Event
  | searchProperty (accIdx : Nat) (address : Option String) : Event
  | createPropertyReq (accIdx propId : Nat) : Event
  | associateReq (accIdx : Nat) (contactGhl propGhl : Option String) : Event
deriving Repr, DecidableEq

/-- Per-account working state: the store, this account's `contactIdMap`,
and the cumulative trace. -/
structure AccState where
  db : DB
  contactIdMap : List (Nat × Option String)
  trace : List Event
deriving Repr, DecidableEq

/-- Lookup in `contactIdMap` (a JavaScript object: missing key gives
`undefined`). -/
def mapLookup (m : List (Nat × Option String)) (k : Nat) : Option String :=
  match m.find? (fun e => e.1 = k) with
  | some e => e.2
  | none => none

/-- Assignment `contactIdMap[k] = v`. -/
def mapAssign (m : List (Nat × Option String)) (k : Nat) (v : Option String) :
    List (Nat × Option String) :=
  if m.any (fun e => e.1 = k) then
    m.map (fun e => if e.1 = k then (k, v) else e)
  else m ++ [(k, v)]

/-- Row-scoped contact update (`prisma.contact.update({ where: { id } })`). -/
def updateContact (db : DB) (cid : Nat) (f : Contact → Contact) : DB :=
  { db with contacts := db.contacts.map (fun c => if c.id = cid then f c else c) }

/-- Row-scoped property update. -/
def updateProperty (db : DB) (pid : Nat) (f : Property → Property) : DB :=
  { db with properties := db.properties.map (fun p => if p.id = pid then f p else p) }

/-- Prisma semantics of passing a possibly-`undefined` value in `data`:
`undefined` leaves the column unchanged. -/
def prismaSetStr (old new : Option String) : Option String :=
  match new with
  | some s => some s
  | none => old

/-- Trace append for one outbound call. -/
def emitEvent (ev : Event) (st : AccState) : AccState :=
  { st with trace := st.trace ++ [ev] }

/-- Found-existing branch of the contact loop: record the destination id in
`contactIdMap` and, when the selection-time snapshot has no
`ghlContactId`, backfill the local row — for every account (the guard is
`!contact.ghlContactId`, not the account). -/
def contactFoundStep (contactId : Nat) (contact : Contact)
    (existingGhlId : Option String) (st : AccState) : AccState :=
  let st := { st with contactIdMap := mapAssign st.contactIdMap contactId existingGhlId }
  if jsStrFalsy contact.ghlContactId then
    let db' := updateContact st.db contactId (fun c => { c with ghlContactId := existingGhlId })
    { st with db := db' }
  else st

/-- Create branch of the contact loop: on a 200/201 response extract
`contact.id || id`, persist `pushed`/`ghlContactId` on the local row only
for the primary account (`account === GHL_ACCOUNTS[0]`), and record the id
in `contactIdMap` for every account. -/
def contactCreateStep (accIdx : Nat) (contact : Contact) (outcome : CreateOutcome)
    (st : AccState) : AccState :=
  match outcome with
  | .ok status data =>
    if status = 201 ∨ status = 200 then
      let ghlContactId := jsOrStr data.contactId data.id
      let st :=
        if accIdx = 0 then
          let db' := updateContact st.db contact.id (fun c =>
            { c with pushed := true,
                     ghlContactId := prismaSetStr c.ghlContactId ghlContactId })
          { st with db := db' }
        else st
      { st with contactIdMap := mapAssign st.contactIdMap contact.id ghlContactId }
    else st
  | .err => st

/-- Step 3 body, one `contactsToPush` entry for one account: skip without
email and phone; search for an existing destination contact; then the
found-existing or the create branch.  A contact owning no property in the
selected batch is skipped before the create request. -/
def processContact (env : GhlEnv) (accIdx : Nat) (sel : List SelProp)
    (st : AccState) (entry : Nat × Contact) : AccState :=
  let contactId := entry.1
  let contact := entry.2
  let st := emitEvent (Event.contactAttempt accIdx contactId) st
  if ¬ strTruthy contact.email ∧ ¬ strTruthy contact.phone then st
  else
    let existingGhlId := env.findContact accIdx contact.email contact.phone
    let st := emitEvent (Event.searchContact accIdx contact.email contact.phone) st
    if strTruthy existingGhlId then contactFoundStep contactId contact existingGhlId st
    else
      match sel.find? (fun sp => sp.prop.ownerId = some contactId) with
      | none => st
      | some _ =>
        let st := emitEvent (Event.createContactReq accIdx contactId) st
        contactCreateStep accIdx contact (env.createContact accIdx contactId) st

/-- Contact-id fallback of the property loop: when the map has no truthy id,
re-read the owner row and search the destination again.  Returns the
resolved id and the trace events of the extra search. -/
def ownerFallbackSearch (env : GhlEnv) (accIdx : Nat) (db : DB) (oid : Nat)
    (ghlContactId0 : Option String) : Option String × List Event :=
  match lookupContact db oid with
  | some owner =>
    (env.findContact accIdx owner.email owner.phone,
     [Event.searchContact accIdx owner.email owner.phone])
  | none => (ghlContactId0, [])

/-- Found-existing branch of the property loop: resolve a contact id (map,
then fallback), associate when both ids are truthy, never recreate, and
never write the local store. -/
def propertyExistingStep (env : GhlEnv) (accIdx : Nat) (p : Property)
    (existingGhlId : Option String) (st : AccState) : AccState :=
  let ghlContactId0 : Option String :=
    match p.ownerId with
    | some oid => mapLookup st.contactIdMap oid
    | none => none
  let resolved : Option String × List Event :=
    if jsStrFalsy ghlContactId0 ∧ optNatTruthy p.ownerId then
      match p.ownerId with
      | some oid => ownerFallbackSearch env accIdx st.db oid ghlContactId0
      | none => (ghlContactId0, [])
    else (ghlContactId0, [])
  let st := { st with trace := st.trace ++ resolved.2 }
  if strTruthy resolved.1 ∧ strTruthy existingGhlId then
    emitEvent (Event.associateReq accIdx resolved.1 existingGhlId) st
  else st

/-- Create branch of the property loop: on a 201 with an extractable id,
persist `ghlPropertyId` and `pushed := (account is primary)` — an
unconditional row write, performed for every account; on 200/201
associate when both external ids are truthy. -/
def propertyCreateStep (accIdx : Nat) (pId : Nat) (ghlContactId : Option String)
    (outcome : CreateOutcome) (st : AccState) : AccState :=
  match outcome with
  | .ok status data =>
    let st :=
      if status = 201 then
        let ghlPropertyId := extractGhlId data
        if strTruthy ghlPropertyId then
          let db' := updateProperty st.db pId (fun q =>
            { q with pushed := decide (accIdx = 0), ghlPropertyId := ghlPropertyId })
          { st with db := db' }
        else st
      else st
    if status = 201 ∨ status = 200 then
      let ghlPropertyId := extractGhlId data
      if strTruthy ghlPropertyId ∧ strTruthy ghlContactId then
        emitEvent (Event.associateReq accIdx ghlContactId ghlPropertyId) st
      else st
    else st
  | .err => st

/-- Step 4 body, one selected property for one account: search by full
address; on a truthy hit take the found-existing branch; otherwise require
a truthy `ownerId` and a resolvable contact id, then take the create
branch. -/
def processProperty (env : GhlEnv) (accIdx : Nat) (st : AccState) (sp : SelProp) :
    AccState :=
  let p := sp.prop
  let existingGhlId := env.findProperty accIdx p.addressFull
  let st := emitEvent (Event.searchProperty accIdx p.addressFull) st
  if strTruthy existingGhlId then propertyExistingStep env accIdx p existingGhlId st
  else
    if ¬ optNatTruthy p.ownerId then st
    else
      match p.ownerId with
      | none => st
      | some oid =>
        let ghlContactId0 := mapLookup st.contactIdMap oid
        let resolved : Option String × List Event :=
          if jsStrFalsy ghlContactId0 then
            ownerFallbackSearch env accIdx st.db oid ghlContactId0
          else (ghlContactId0, [])
        let st := { st with trace := st.trace ++ resolved.2 }
        if jsStrFalsy resolved.1 then st
        else
          let st := emitEvent (Event.createPropertyReq accIdx p.id) st
          propertyCreateStep accIdx p.id resolved.1 (env.createProperty accIdx p.id) st

/-- Engine state threaded across accounts (each account starts a fresh
`contactIdMap`). -/
structure RunState where
  db : DB
  trace : List Event
deriving Repr, DecidableEq

/-- One destination account's full pass: push contacts, then push
properties and associate. -/
def runAccount (env : GhlEnv) (accIdx : Nat) (sel : List SelProp)
    (ctp : List (Nat × Contact)) (rs : RunState) : RunState :=
  let st : AccState := { db := rs.db, contactIdMap := [], trace := rs.trace }
  let st := ctp.foldl (processContact env accIdx sel) st
  let st := sel.foldl (processProperty env accIdx) st
  { db := st.db, trace := st.trace }

/-- Embedding of `pushLeadsForUser` (src/lib/pushLeads.ts): select the
matching unpushed properties (empty selection returns immediately), derive
the distinct unpushed owners, then iterate the configured destination
accounts. -/
def pushLeadsForUser (accounts : List Account) (env : GhlEnv)
    (settings : UserSettings) (db : DB) : RunState :=
  let sel := selectProperties settings db
  if sel.length = 0 then { db := db, trace := [] }
  else
    let ctp := contactsToPush sel
    (List.range accounts.length).foldl
      (fun rs i => runAccount env i sel ctp rs)
      { db := db, trace := [] }

/-! ## Claim theorems -/

/-- Message string extracted by `createRelationBetweenRecords` from a
rejection body (`(data.message || data.error || "").toString().toLowerCase()`). -/
def relErrMessage (d : RelErrData) : String :=
  strToLower ((jsOrStr d.message (jsOrStr d.errField (some ""))).getD "")

/-- Settings whose ZIP list matches no seeded property (empty-selection
scenario). -/
def zipMissSettings : UserSettings :=
  { zipCodes := ["99999"], priceMin := none, priceMax := none }

/-- A single unpushed property outside that ZIP list. -/
def zipMissProperty : Property :=
  { id := 1, ownerId := none, price := 5, postalCode := some "11111",
    addressFull := none, pushed := false, ghlPropertyId := none }

/-- Store for the empty-selection scenario. -/
def zipMissDB : DB := { contacts := [], properties := [zipMissProperty] }

/-- Environment in which every destination call fails or finds nothing. -/
def nullEnv : GhlEnv :=
  { findContact := fun _ _ _ => none, findProperty := fun _ _ => none,
    createContact := fun _ _ => .err, createProperty := fun _ _ => .err }

/-- Frame relation for a contact row across a non-primary account's loop:
the row is unchanged, or only its `ghlContactId` was rewritten to a truthy
found id (the found-existing backfill). -/
def contactFrame (c c' : Contact) : Prop :=
  c' = c ∨ (c' = { c with ghlContactId := c'.ghlContactId }
    ∧ strTruthy c'.ghlContactId = true)

/-- Pushed-flag monotonicity relation: a step never turns `pushed` on. -/
def pushedImp (q q' : Property) : Prop := q'.pushed = true → q.pushed = true

/-- Invariant: every pushed property row carries a destination id. -/
def propsInv (l : List Property) : Prop :=
  ∀ p ∈ l, p.pushed = true → p.ghlPropertyId.isSome = true

/-- Settings selecting the one seeded property (ZIP `"Z"`). -/
def cxSettings : UserSettings := { zipCodes := ["Z"], priceMin := none, priceMax := none }

/-- First (primary) destination account of the scenarios. -/
def cxAccountA : Account := { name := "A", locationId := "LA", privateToken := "TA" }

/-- Second (secondary) destination account of the scenarios. -/
def cxAccountB : Account := { name := "B", locationId := "LB", privateToken := "TB" }

/-- Owner contact of the C1 scenario: already pushed, with a known
destination id, so the contact loop is a no-op. -/
def cx1Owner : Contact :=
  { id := 1, email := some "o@x.y", phone := none, ghlContactId := some "CX",
    pushed := true, tags := none }

/-- The one selected property of the scenarios. -/
def cx1Prop : Property :=
  { id := 10, ownerId := some 1, price := 100, postalCode := some "Z",
    addressFull := some "1 Main St", pushed := false, ghlPropertyId := none }

/-- Store of the C1 scenario. -/
def cx1DB : DB := { contacts := [cx1Owner], properties := [cx1Prop] }

/-- Environment of the C1 scenario: the owner is found existing in every
account; the property is absent everywhere and its creation succeeds with
HTTP 201 and an extractable id in every account (`"P0"` in the primary,
`"P1"` in the secondary). -/
def cx1Env : GhlEnv :=
  { findContact := fun _ _ _ => some "CX",
    findProperty := fun _ _ => none,
    createContact := fun _ _ => .err,
    createProperty := fun i _ =>
      .ok 201 { id := some (if i = 0 then "P0" else "P1") } }

/-- Owner contact of the C7 scenario: unpushed, no destination id. -/
def cx7Owner : Contact :=
  { id := 1, email := some "o@x.y", phone := none, ghlContactId := none,
    pushed := false, tags := none }

/-- Store of the C7 scenario. -/
def cx7DB : DB := { contacts := [cx7Owner], properties := [cx1Prop] }

/-- Environment of the C7 scenario: the primary account finds no existing
contact and its creation fails; the secondary account finds an existing
match `"SEC"`; properties are never found or created. -/
def cx7Env : GhlEnv :=
  { findContact := fun i _ _ => if i = 0 then none else some "SEC",
    findProperty := fun _ _ => none,
    createContact := fun _ _ => .err,
    createProperty := fun _ _ => .err }

/-- Contact ids whose push the PushContacts loop of account `a` attempted
(one `contactAttempt` trace event per loop iteration). -/
def attemptedContacts (tr : List Event) (a : Nat) : List Nat :=
  tr.filterMap (fun e =>
    match e with
    | Event.contactAttempt a' c => if a' = a then some c else none
    | _ => none)

/-- Derivation condition of `contactsToPush` for one selected property. -/
def ctpCond (sp : SelProp) (k : Nat) : Prop :=
  sp.prop.ownerId = some k ∧ k ≠ 0 ∧ ∃ o, sp.owner = some o ∧ o.pushed = false

/-- C10: for every string input whose numeric parse (after stripping `$`
and `,`) is `NaN` — for example `"abc"` — `normalizeHouseholdIncome`
returns `"Above 90k"` rather than `undefined`, because `NaN` fails both
the `< 65000` and the `<= 90000` comparisons; only `null`/`undefined`
inputs yield `undefined`. -/
theorem C10_household_income_nan :
    (∀ s : String, (jsStringToNumber (stripDollarCommas s)).isNaN = true →
      normalizeHouseholdIncome (some (.inl s)) = some "Above 90k")
    ∧ normalizeHouseholdIncome (some (.inl "abc")) = some "Above 90k"
    ∧ (∀ v : StrOrNum, normalizeHouseholdIncome (some v) ≠ none)
    ∧ normalizeHouseholdIncome none = none := by
  refine ⟨fun s h => ?_, by decide, fun v => ?_, rfl⟩
  · have hn : jsStringToNumber (stripDollarCommas s) = JsNum.nan := by
      cases hv : jsStringToNumber (stripDollarCommas s) <;>
        simp [hv, JsNum.isNaN] at h ⊢
    simp [normalizeHouseholdIncome, hn, jsLtNum, jsLeNum]
  · cases v with
    | inl s =>
      simp only [normalizeHouseholdIncome]
      split
      · simp
      · split <;> simp
    | inr n =>
      simp only [normalizeHouseholdIncome]
      split
      · simp
      · split <;> simp

/-- C10 witness: `"abc"` parses to `NaN` and is classified `"Above 90k"`. -/
theorem C10_household_income_nan_witness :
    (jsStringToNumber (stripDollarCommas "abc")).isNaN = true
    ∧ normalizeHouseholdIncome (some (.inl "abc")) = some "Above 90k" :=
  ⟨by decide, C10_household_income_nan.1 "abc" (by decide)⟩

/-- C6: claiming a job upserts the row to `in_progress` with `attempts`
incremented (a missing row is created with `attempts = 1`); a normal
engine return yields `completed` with a finish timestamp and no re-thrown
error; a thrown engine error is recorded as `lastError`, the status set to
`failed`, and the error re-thrown (never swallowed); the producer
enqueues with retryLimit 3, retryDelay 60 s, exponential backoff and a
3600 s expiry. -/
theorem C6_worker_lifecycle :
    (∀ qid name uid existing now,
      (claimJobRow qid name uid existing now).status = "in_progress"
      ∧ (claimJobRow qid name uid existing now).attempts
          = (match existing with
             | some r => r.attempts
             | none => 0) + 1)
    ∧ (∀ qid name uid existing now,
      (workerProcessJob qid name uid existing .success now).1.status = "completed"
      ∧ (workerProcessJob qid name uid existing .success now).1.finishedAt = some now
      ∧ (workerProcessJob qid name uid existing .success now).2 = none)
    ∧ (∀ qid name uid existing now msg,
      (workerProcessJob qid name uid existing (.failure msg) now).1.status = "failed"
      ∧ (workerProcessJob qid name uid existing (.failure msg) now).1.lastError = some msg
      ∧ (workerProcessJob qid name uid existing (.failure msg) now).1.attempts
          = (claimJobRow qid name uid existing now).attempts
      ∧ (workerProcessJob qid name uid existing (.failure msg) now).2 = some msg)
    ∧ deliverLeadsBatchSendOptions
        = { retryLimit := 3, retryDelay := 60, retryBackoff := true, expireInSeconds := 3600 } := by
  refine ⟨fun qid name uid existing now => ⟨?_, ?_⟩,
    fun qid name uid existing now => ⟨rfl, rfl, rfl⟩,
    fun qid name uid existing now msg => ⟨rfl, rfl, rfl, rfl⟩, rfl⟩
  · cases existing <;> rfl
  · cases existing <;> rfl

/-- C8 counterexample: a call failing with HTTP 429 does not surface its
error — the `failed` handler returns a 60000 ms delay, so the limiter
retries the failed call itself and the caller observes the retry's result
(here `ok 7` after one 60 s retry), contradicting the claim that the
limiter performs no per-request retry and that the failing call surfaces
its error. -/
theorem C8_rate_limit_counterexample :
    ghlLimiterOnFailed (some 429) = some 60000
    ∧ bottleneckSchedule (α := Nat) ghlLimiterOnFailed
        [.errStatus (some 429), .ok 7] = (.ok 7, [60000]) := by
  constructor
  · rfl
  · rfl

/-- C8 amended: on a 429 failure the `failed` handler schedules a retry of
the failed call itself after a fixed 60 s delay, so the 429 error is not
surfaced to the caller unless every retry also fails; a non-429 failure
surfaces immediately with no retry. -/
theorem C8_rate_limit_retry :
    (∀ s : Option Nat, s ≠ some 429 → ghlLimiterOnFailed s = none)
    ∧ ghlLimiterOnFailed (some 429) = some 60000
    ∧ (∀ (r : CallResult Nat) (rest : List (CallResult Nat)),
        bottleneckSchedule ghlLimiterOnFailed (.errStatus (some 429) :: r :: rest)
          = ((bottleneckSchedule ghlLimiterOnFailed (r :: rest)).1,
             60000 :: (bottleneckSchedule ghlLimiterOnFailed (r :: rest)).2))
    ∧ (∀ (s : Option Nat) (rest : List (CallResult Nat)), s ≠ some 429 →
        bottleneckSchedule (α := Nat) ghlLimiterOnFailed (.errStatus s :: rest)
          = (.errStatus s, [])) := by
  refine ⟨fun s hs => ?_, rfl, fun r rest => ?_, fun s rest hs => ?_⟩
  · simp [ghlLimiterOnFailed, hs]
  · simp [bottleneckSchedule, ghlLimiterOnFailed]
  · simp [bottleneckSchedule, ghlLimiterOnFailed, hs]

/-- C8 witness: a 500 failure surfaces unchanged, a 429 failure is retried. -/
theorem C8_rate_limit_retry_witness :
    ghlLimiterOnFailed (some 500) = none
    ∧ bottleneckSchedule (α := Nat) ghlLimiterOnFailed
        [.errStatus (some 500), .ok 3] = (.errStatus (some 500), []) :=
  ⟨C8_rate_limit_retry.1 (some 500) (by decide),
   C8_rate_limit_retry.2.2.2 (some 500) [.ok 3] (by decide)⟩

/-- C4: `createRelationBetweenRecords` succeeds on 200/201 and on an HTTP
400 rejection whose message contains "duplicate" (idempotent duplicate
relation); hence `ensureAssociation` twice with the same external ids
succeeds both times (the second call takes the duplicate-400 path); any
other association failure yields `success=false` and is logged without
aborting the job (`ensureContactPropertyAssociation` is total and catches
the only throwing path of `createRelationBetweenRecords`). -/
theorem C4_association_idempotent :
    (∀ aid f s st, aid ≠ "" → f ≠ "" → s ≠ "" → (st = 201 ∨ st = 200) →
      createRelationBetweenRecords aid f s (.ok st) = .ok { success := true })
    ∧ (∀ aid f s d, aid ≠ "" → f ≠ "" → s ≠ "" →
      strHasSub (relErrMessage d) "duplicate" = true →
      createRelationBetweenRecords aid f s (.errResp (some 400) (some d))
        = .ok { success := true, alreadyExists := true })
    ∧ (∀ aid c p crm, aid ≠ "" → c ≠ "" → p ≠ "" →
      (aid, c, p) ∉ crm.relations →
      (ensureContactPropertyAssociation (some aid) c p crm).1 = some true
      ∧ (ensureContactPropertyAssociation (some aid) c p
          (ensureContactPropertyAssociation (some aid) c p crm).2).1 = some true)
    ∧ (∀ aid f s status d, aid ≠ "" → f ≠ "" → s ≠ "" →
      ¬ (status = some 400
        ∧ (strHasSub (relErrMessage d) "duplicate" = true
          ∨ strHasSub (relErrMessage d) "duplicate relation" = true
          ∨ strHasSub (relErrMessage d) "duplicate association" = true)) →
      createRelationBetweenRecords aid f s (.errResp status (some d))
        = .ok { success := false }) := by
  refine ⟨fun aid f s st ha hf hs hst => ?_, fun aid f s d ha hf hs hdup => ?_,
    fun aid c p crm ha hc hp habs => ?_, fun aid f s status d ha hf hs hnot => ?_⟩
  · rcases hst with h | h <;> simp [createRelationBetweenRecords, ha, hf, hs, h]
  · simp [createRelationBetweenRecords, ha, hf, hs, relErrMessage] at hdup ⊢
    simp [hdup]
  · have h1 : crmCreateRelation crm aid c p
        = (.ok 201, { relations := crm.relations ++ [(aid, c, p)] }) := by
      simp [crmCreateRelation, habs]
    have hmem : (aid, c, p) ∈ (crm.relations ++ [(aid, c, p)]) := by simp
    constructor
    · simp [ensureContactPropertyAssociation, hc, hp, ha, h1,
        createRelationBetweenRecords]
    · simp [ensureContactPropertyAssociation, hc, hp, ha, h1]
      simp [crmCreateRelation, hmem, createRelationBetweenRecords, ha, hc, hp,
        relErrMessage, jsOrStr, strHasSub]
      rfl
  · simp [createRelationBetweenRecords, ha, hf, hs, relErrMessage] at hnot ⊢
    intro h400
    subst h400
    simp at hnot
    simp [hnot]

/-- C4 witness: a fresh relation succeeds with 201 and again through the
duplicate-400 path on the second call. -/
theorem C4_association_idempotent_witness :
    ("A" : String) ≠ "" ∧ ("C" : String) ≠ "" ∧ ("P" : String) ≠ ""
    ∧ ("A", "C", "P") ∉ (CrmState.mk []).relations
    ∧ (ensureContactPropertyAssociation (some "A") "C" "P" (CrmState.mk [])).1 = some true
    ∧ (ensureContactPropertyAssociation (some "A") "C" "P"
        (ensureContactPropertyAssociation (some "A") "C" "P" (CrmState.mk [])).2).1 = some true := by
  refine ⟨by decide, by decide, by decide, by simp, ?_, ?_⟩
  · exact (C4_association_idempotent.2.2.1 "A" "C" "P" (CrmState.mk [])
      (by decide) (by decide) (by decide) (by simp)).1
  · exact (C4_association_idempotent.2.2.1 "A" "C" "P" (CrmState.mk [])
      (by decide) (by decide) (by decide) (by simp)).2

/-- C5: `findGhlContactByEmailOrPhone` tries the email duplicate search
first and only then the phone search (a truthy email hit short-circuits);
HTTP 404 from both searches is not-found; 401/403 is re-thrown; every
other failing status is a soft failure mapped to not-found; the search
order is always email-then-phone; `findGhlPropertyByAddress` obeys the
same 404-is-absence / 401-403-is-fatal contract. -/
theorem C5_search_error_contract :
    (∀ e p env cid, strTruthy e = true → env.emailSearch = .respOk cid →
      strTruthy cid = true →
      findGhlContactByEmailOrPhone e p env = (.ok cid, [.byEmail]))
    ∧ (∀ e p env, strTruthy e = true → strTruthy p = true →
      env.emailSearch = .httpErr (some 404) → env.phoneSearch = .httpErr (some 404) →
      findGhlContactByEmailOrPhone e p env = (.ok none, [.byEmail, .byPhone]))
    ∧ (∀ e p env st, strTruthy e = true → (st = 401 ∨ st = 403) →
      env.emailSearch = .httpErr (some st) →
      (findGhlContactByEmailOrPhone e p env).1 = .error (some st))
    ∧ (∀ e p env st, strTruthy p = true → (st = 401 ∨ st = 403) →
      (match env.emailSearch with
       | .respOk cid => strTruthy cid = false
       | .httpErr s => contactSearchErrStep s = none) →
      env.phoneSearch = .httpErr (some st) →
      (findGhlContactByEmailOrPhone e p env).1 = .error (some st))
    ∧ (∀ e p env s1 s2, strTruthy e = true → strTruthy p = true →
      s1 ≠ 401 → s1 ≠ 403 → s2 ≠ 401 → s2 ≠ 403 →
      env.emailSearch = .httpErr (some s1) → env.phoneSearch = .httpErr (some s2) →
      (findGhlContactByEmailOrPhone e p env).1 = .ok none)
    ∧ (∀ e p env, (findGhlContactByEmailOrPhone e p env).2 ∈
        ([[], [.byEmail], [.byPhone], [.byEmail, .byPhone]] : List (List SearchStep)))
    ∧ (∀ a, findGhlPropertyByAddress a (.httpErr (some 404)) = .ok none)
    ∧ (∀ a st, strTruthy a = true → (st = 401 ∨ st = 403) →
      findGhlPropertyByAddress a (.httpErr (some st)) = .error (some st))
    ∧ (∀ a st, st ≠ 401 → st ≠ 403 →
      findGhlPropertyByAddress a (.httpErr (some st)) = .ok none)
    ∧ (∀ a r0 rest, strTruthy a = true → strTruthy r0 = true →
      findGhlPropertyByAddress a (.respOk (r0 :: rest)) = .ok r0) := by
  have hstep : ∀ st : Nat, st ≠ 401 → st ≠ 403 →
      contactSearchErrStep (some st) = none := by
    intro st h1 h3
    simp [contactSearchErrStep, h1, h3]
  refine ⟨?_, ?_, ?_, ?_, ?_, ?_, ?_, ?_, ?_, ?_⟩
  · intro e p env cid he hes hcid
    simp [findGhlContactByEmailOrPhone, he, hes, hcid]
  · intro e p env he hp hes hps
    simp [findGhlContactByEmailOrPhone, he, hp, hes, hps, contactSearchErrStep]
  · intro e p env st he hst hes
    rcases hst with h | h <;>
      simp [findGhlContactByEmailOrPhone, he, hes, contactSearchErrStep, h]
  · intro e p env st hp hst hemail hps
    rcases hst with h | h <;>
    · cases hes : env.emailSearch with
      | respOk cid =>
        rw [hes] at hemail
        by_cases he : strTruthy e = true <;>
          simp_all [findGhlContactByEmailOrPhone, contactSearchErrStep, h]
      | httpErr s =>
        rw [hes] at hemail
        by_cases he : strTruthy e = true <;>
          simp_all [findGhlContactByEmailOrPhone, contactSearchErrStep, h]
  · intro e p env s1 s2 he hp h1 h3 h1' h3' hes hps
    simp [findGhlContactByEmailOrPhone, he, hp, hes, hps, hstep s1 h1 h3,
      hstep s2 h1' h3']
  · intro e p env
    simp only [findGhlContactByEmailOrPhone]
    split
    · simp
    · split <;> split <;> by_cases he : strTruthy e = true <;>
        by_cases hp : strTruthy p = true <;> simp_all
  · intro a
    by_cases ha : strTruthy a = true <;>
      simp [findGhlPropertyByAddress, ha]
  · intro a st ha hst
    rcases hst with h | h <;> simp [findGhlPropertyByAddress, ha, h]
  · intro a st h1 h3
    by_cases ha : strTruthy a = true <;>
      simp [findGhlPropertyByAddress, ha, h1, h3]
  · intro a r0 rest ha hr
    simp [findGhlPropertyByAddress, ha, hr]

/-- C5 witness: with email `"e@x"` and phone `"1"`, a 404 on both searches
yields not-found after searching email first, then phone. -/
theorem C5_search_error_contract_witness :
    strTruthy (some "e@x") = true ∧ strTruthy (some "1") = true
    ∧ findGhlContactByEmailOrPhone (some "e@x") (some "1")
        { emailSearch := .httpErr (some 404), phoneSearch := .httpErr (some 404) }
        = (.ok none, [.byEmail, .byPhone]) :=
  ⟨by decide, by decide,
   C5_search_error_contract.2.1 (some "e@x") (some "1")
     { emailSearch := .httpErr (some 404), phoneSearch := .httpErr (some 404) }
     (by decide) (by decide) rfl rfl⟩

/-- C3: property selection returns exactly the properties with
`pushed = false`, `postalCode` in the user's ZIP list and price within
`[priceMin ?? 0, priceMax ?? MAX_SAFE_INTEGER]`; when the selection is
empty, the job returns immediately with the store unchanged and an empty
destination-call trace (zero pushes, zero API calls). -/
theorem C3_selection_and_noop :
    (∀ s db p, p ∈ (selectProperties s db).map SelProp.prop ↔
      (p ∈ db.properties ∧ (s.priceMin.getD 0) ≤ p.price
        ∧ p.price ≤ (s.priceMax.getD maxSafeInteger)
        ∧ (∃ z ∈ s.zipCodes, p.postalCode = some z) ∧ p.pushed = false))
    ∧ (∀ accounts env s db, selectProperties s db = [] →
      pushLeadsForUser accounts env s db = { db := db, trace := [] }) := by
  constructor
  · intro s db p
    simp only [selectProperties, List.map_map, List.mem_map, Function.comp,
      List.mem_filter]
    constructor
    · rintro ⟨q, ⟨hq, hmatch⟩, rfl⟩
      refine ⟨hq, ?_⟩
      simp only [propertyMatches, Bool.and_eq_true, decide_eq_true_eq] at hmatch
      obtain ⟨⟨⟨h1, h2⟩, h3⟩, h4⟩ := hmatch
      refine ⟨h1, h2, ?_, h4⟩
      cases hpc : q.postalCode with
      | none => rw [hpc] at h3; simp at h3
      | some pc =>
        rw [hpc] at h3
        simp only [List.contains_iff_exists_mem_beq] at h3
        obtain ⟨z, hz, hbeq⟩ := h3
        exact ⟨z, hz, by simpa using (beq_iff_eq.mp hbeq ▸ rfl)⟩
    · rintro ⟨hq, h1, h2, ⟨z, hz, hpc⟩, h4⟩
      refine ⟨p, ⟨hq, ?_⟩, rfl⟩
      simp only [propertyMatches, Bool.and_eq_true, decide_eq_true_eq]
      refine ⟨⟨⟨h1, h2⟩, ?_⟩, h4⟩
      rw [hpc]
      simp only [List.contains_iff_exists_mem_beq]
      exact ⟨z, hz, by simp⟩
  · intro accounts env s db hsel
    simp [pushLeadsForUser, hsel]

/-- C3 witness: a user whose ZIP list matches no property selects nothing,
and the job is a no-op with an empty call trace. -/
theorem C3_selection_and_noop_witness :
    selectProperties zipMissSettings zipMissDB = []
    ∧ pushLeadsForUser GHL_ACCOUNTS nullEnv zipMissSettings zipMissDB
        = { db := zipMissDB, trace := [] } := by
  constructor
  · decide
  · exact C3_selection_and_noop.2 GHL_ACCOUNTS nullEnv zipMissSettings zipMissDB (by decide)

/-! ### Frame lemmas for the delivery engine -/

/-- Emitting a trace event leaves the store untouched. -/
theorem emitEvent_db (ev : Event) (st : AccState) : (emitEvent ev st).db = st.db := rfl

/-- The contact loop never writes property rows. -/
theorem contactFoundStep_properties (cid : Nat) (c : Contact) (g : Option String)
    (st : AccState) : (contactFoundStep cid c g st).db.properties = st.db.properties := by
  simp only [contactFoundStep]
  split <;> rfl

/-- The contact-create branch never writes property rows. -/
theorem contactCreateStep_properties (a : Nat) (c : Contact) (o : CreateOutcome)
    (st : AccState) : (contactCreateStep a c o st).db.properties = st.db.properties := by
  simp only [contactCreateStep]
  repeat' split
  all_goals rfl

/-- `processContact` never writes property rows. -/
theorem processContact_properties (env : GhlEnv) (a : Nat) (sel : List SelProp)
    (st : AccState) (e : Nat × Contact) :
    (processContact env a sel st e).db.properties = st.db.properties := by
  simp only [processContact, emitEvent]
  repeat' split
  all_goals first
    | rfl
    | apply contactFoundStep_properties
    | apply contactCreateStep_properties

/-- The property loop's found-existing branch never writes the store. -/
theorem propertyExistingStep_contacts (env : GhlEnv) (a : Nat) (p : Property)
    (g : Option String) (st : AccState) :
    (propertyExistingStep env a p g st).db.contacts = st.db.contacts := by
  simp only [propertyExistingStep, emitEvent]
  repeat' split
  all_goals rfl

/-- The property-create branch never writes contact rows. -/
theorem propertyCreateStep_contacts (a pid : Nat) (g : Option String)
    (o : CreateOutcome) (st : AccState) :
    (propertyCreateStep a pid g o st).db.contacts = st.db.contacts := by
  simp only [propertyCreateStep, emitEvent]
  repeat' split
  all_goals rfl

/-- `processProperty` never writes contact rows. -/
theorem processProperty_contacts (env : GhlEnv) (a : Nat) (st : AccState) (sp : SelProp) :
    (processProperty env a st sp).db.contacts = st.db.contacts := by
  simp only [processProperty, emitEvent]
  repeat' split
  all_goals first
    | rfl
    | apply propertyExistingStep_contacts
    | apply propertyCreateStep_contacts

/-- Reflexivity transfer for `List.Forall₂`. -/
theorem forall2_self {α : Type _} {R : α → α → Prop} (h : ∀ x, R x x) :
    ∀ l : List α, List.Forall₂ R l l
  | [] => List.Forall₂.nil
  | x :: xs => List.Forall₂.cons (h x) (forall2_self h xs)

/-- Pointwise map gives `Forall₂` against the original list. -/
theorem forall2_map {α : Type _} {R : α → α → Prop} (f : α → α) :
    ∀ l : List α, (∀ x ∈ l, R x (f x)) → List.Forall₂ R l (l.map f)
  | [], _ => List.Forall₂.nil
  | x :: xs, h =>
    List.Forall₂.cons (h x (List.mem_cons_self x xs))
      (forall2_map f xs (fun y hy => h y (List.mem_cons_of_mem x hy)))

/-- Transitivity transfer for `List.Forall₂`. -/
theorem forall2_trans {α : Type _} {R : α → α → Prop}
    (h : ∀ a b c, R a b → R b c → R a c) :
    ∀ {l1 l2 l3 : List α}, List.Forall₂ R l1 l2 → List.Forall₂ R l2 l3 →
      List.Forall₂ R l1 l3 := by
  intro l1 l2 l3 h12
  induction h12 generalizing l3 with
  | nil =>
    intro h23
    cases h23
    exact List.Forall₂.nil
  | cons hab htl ih =>
    intro h23
    cases h23 with
    | cons hbc htl' => exact List.Forall₂.cons (h _ _ _ hab hbc) (ih htl')

/-- `contactFrame` is reflexive. -/
theorem contactFrame_refl (c : Contact) : contactFrame c c := Or.inl rfl

/-- `contactFrame` is transitive. -/
theorem contactFrame_trans (a b c : Contact) :
    contactFrame a b → contactFrame b c → contactFrame a c := by
  rintro (rfl | ⟨hb, hbs⟩) (rfl | ⟨hc, hcs⟩)
  · exact Or.inl rfl
  · exact Or.inr ⟨hc, hcs⟩
  · exact Or.inr ⟨hb, hbs⟩
  · refine Or.inr ⟨?_, hcs⟩
    rw [hc, hb]

/-- The backfill of the found-existing branch respects `contactFrame` when
the found id is truthy (which the branch guard guarantees). -/
theorem contactFoundStep_frame (cid : Nat) (c : Contact) (g : Option String)
    (db : DB) (m : List (Nat × Option String)) (tr : List Event)
    (hg : strTruthy g = true) :
    List.Forall₂ contactFrame db.contacts
      (contactFoundStep cid c g ⟨db, m, tr⟩).db.contacts := by
  simp only [contactFoundStep]
  split
  · refine forall2_map _ _ (fun x _ => ?_)
    by_cases hid : x.id = cid
    · rw [if_pos hid]
      exact Or.inr ⟨rfl, hg⟩
    · rw [if_neg hid]
      exact contactFrame_refl x
  · exact forall2_self contactFrame_refl _

/-- For a non-primary account the create branch performs no contact write. -/
theorem contactCreateStep_frame (a : Nat) (c : Contact) (o : CreateOutcome)
    (db : DB) (m : List (Nat × Option String)) (tr : List Event) (ha : a ≠ 0) :
    List.Forall₂ contactFrame db.contacts
      (contactCreateStep a c o ⟨db, m, tr⟩).db.contacts := by
  simp only [contactCreateStep]
  repeat' split
  all_goals first
    | exact forall2_self contactFrame_refl _
    | (exfalso; omega)

/-- For a non-primary account, one `processContact` step changes a contact
row at most by the `ghlContactId` backfill. -/
theorem processContact_frame (env : GhlEnv) (a : Nat) (sel : List SelProp)
    (st : AccState) (e : Nat × Contact) (ha : a ≠ 0) :
    List.Forall₂ contactFrame st.db.contacts (processContact env a sel st e).db.contacts := by
  simp only [processContact, emitEvent]
  repeat' split
  all_goals first
    | exact forall2_self contactFrame_refl _
    | (apply contactFoundStep_frame; assumption)
    | (apply contactCreateStep_frame; exact ha)

/-- `pushedImp` is reflexive. -/
theorem pushedImp_refl (q : Property) : pushedImp q q := fun h => h

/-- `pushedImp` is transitive. -/
theorem pushedImp_trans (a b c : Property) :
    pushedImp a b → pushedImp b c → pushedImp a c := fun h1 h2 h => h1 (h2 h)

/-- For a non-primary account, the property-create write stores
`pushed := false`, so `pushed` is never switched on. -/
theorem propertyCreateStep_pushedImp (a pid : Nat) (g : Option String)
    (o : CreateOutcome) (db : DB) (m : List (Nat × Option String))
    (tr : List Event) (ha : a ≠ 0) :
    List.Forall₂ pushedImp db.properties
      (propertyCreateStep a pid g o ⟨db, m, tr⟩).db.properties := by
  simp only [propertyCreateStep, emitEvent]
  repeat' split
  all_goals try exact forall2_self pushedImp_refl _
  all_goals refine forall2_map _ _ (fun x _ => ?_)
  all_goals intro hp
  all_goals by_cases hid : x.id = pid
  all_goals first
    | (rw [if_pos hid] at hp; simp only [decide_eq_true_eq] at hp; exact absurd hp ha)
    | (rw [if_neg hid] at hp; exact hp)

/-- The found-existing branch writes no property rows. -/
theorem propertyExistingStep_properties (env : GhlEnv) (a : Nat) (p : Property)
    (g : Option String) (st : AccState) :
    (propertyExistingStep env a p g st).db.properties = st.db.properties := by
  simp only [propertyExistingStep, emitEvent]
  repeat' split
  all_goals rfl

/-- For a non-primary account, one `processProperty` step never turns a
`pushed` flag on. -/
theorem processProperty_pushedImp (env : GhlEnv) (a : Nat) (st : AccState)
    (sp : SelProp) (ha : a ≠ 0) :
    List.Forall₂ pushedImp st.db.properties (processProperty env a st sp).db.properties := by
  simp only [processProperty, emitEvent]
  repeat' split
  all_goals first
    | exact forall2_self pushedImp_refl _
    | (rw [propertyExistingStep_properties]; exact forall2_self pushedImp_refl _)
    | (apply propertyCreateStep_pushedImp; exact ha)

/-- A truthy optional string is `some`. -/
theorem strTruthy_isSome {o : Option String} (h : strTruthy o = true) :
    o.isSome = true := by
  cases o <;> simp_all [strTruthy]

/-- The property-create write always stores the extracted id together with
the `pushed` flag, so the invariant survives it for any account. -/
theorem propertyCreateStep_inv (a pid : Nat) (g : Option String)
    (o : CreateOutcome) (st : AccState) (h : propsInv st.db.properties) :
    propsInv (propertyCreateStep a pid g o st).db.properties := by
  simp only [propertyCreateStep, emitEvent]
  repeat' split
  all_goals try exact h
  all_goals intro q hq hqp
  all_goals simp only [updateProperty, List.mem_map] at hq
  all_goals obtain ⟨x, hx, rfl⟩ := hq
  all_goals by_cases hid : x.id = pid
  all_goals simp only [hid, if_pos, if_neg, not_false_iff] at hqp ⊢
  all_goals first
    | (apply strTruthy_isSome; assumption)
    | exact h x hx hqp

/-- `processProperty` preserves the pushed-implies-id invariant. -/
theorem processProperty_inv (env : GhlEnv) (a : Nat) (st : AccState) (sp : SelProp)
    (h : propsInv st.db.properties) :
    propsInv (processProperty env a st sp).db.properties := by
  simp only [processProperty, emitEvent]
  repeat' split
  all_goals first
    | exact h
    | (rw [propertyExistingStep_properties]; exact h)
    | (apply propertyCreateStep_inv; exact h)

/-- Relational fold principle over the engine's loops. -/
theorem foldl_rel {σ α β : Type _} {R : α → α → Prop}
    (htrans : ∀ a b c, R a b → R b c → R a c) (hrefl : ∀ a, R a a)
    (proj : σ → α) (f : σ → β → σ)
    (hstep : ∀ st b, R (proj st) (proj (f st b))) :
    ∀ (l : List β) (st : σ), R (proj st) (proj (l.foldl f st))
  | [], st => hrefl (proj st)
  | b :: bs, st =>
    htrans _ _ _ (hstep st b) (foldl_rel htrans hrefl proj f hstep bs (f st b))

/-- The property loop leaves the contact table exactly as it was. -/
theorem foldl_processProperty_contacts (env : GhlEnv) (a : Nat) :
    ∀ (sel : List SelProp) (st : AccState),
      ((sel.foldl (processProperty env a) st)).db.contacts = st.db.contacts
  | [], _ => rfl
  | sp :: sps, st => by
    rw [List.foldl_cons, foldl_processProperty_contacts env a sps,
      processProperty_contacts]

/-- The contact loop leaves the property table exactly as it was. -/
theorem foldl_processContact_properties (env : GhlEnv) (a : Nat) (sel : List SelProp) :
    ∀ (ctp : List (Nat × Contact)) (st : AccState),
      ((ctp.foldl (processContact env a sel) st)).db.properties = st.db.properties
  | [], _ => rfl
  | e :: es, st => by
    rw [List.foldl_cons, foldl_processContact_properties env a sel es,
      processContact_properties]

/-- A non-primary account's full pass changes contact rows at most by the
found-existing `ghlContactId` backfill — in particular `pushed` and all
other contact fields are never written outside the primary account. -/
theorem runAccount_contacts_frame (env : GhlEnv) (a : Nat) (sel : List SelProp)
    (ctp : List (Nat × Contact)) (rs : RunState) (ha : a ≠ 0) :
    List.Forall₂ contactFrame rs.db.contacts (runAccount env a sel ctp rs).db.contacts := by
  simp only [runAccount]
  rw [foldl_processProperty_contacts]
  exact foldl_rel (R := List.Forall₂ contactFrame)
    (fun _ _ _ h12 h23 => forall2_trans contactFrame_trans h12 h23)
    (forall2_self contactFrame_refl)
    (fun st => st.db.contacts) (processContact env a sel)
    (fun st e => processContact_frame env a sel st e ha) ctp
    { db := rs.db, contactIdMap := [], trace := rs.trace }

/-- A non-primary account's full pass never switches a `pushed` flag on. -/
theorem runAccount_pushedImp (env : GhlEnv) (a : Nat) (sel : List SelProp)
    (ctp : List (Nat × Contact)) (rs : RunState) (ha : a ≠ 0) :
    List.Forall₂ pushedImp rs.db.properties (runAccount env a sel ctp rs).db.properties := by
  simp only [runAccount]
  have h1 : ((ctp.foldl (processContact env a sel)
      { db := rs.db, contactIdMap := [], trace := rs.trace })).db.properties
        = rs.db.properties :=
    foldl_processContact_properties env a sel ctp _
  have h2 := foldl_rel (R := List.Forall₂ pushedImp)
    (fun _ _ _ h12 h23 => forall2_trans pushedImp_trans h12 h23)
    (forall2_self pushedImp_refl)
    (fun st => st.db.properties) (processProperty env a)
    (fun st sp => processProperty_pushedImp env a st sp ha) sel
    (ctp.foldl (processContact env a sel)
      { db := rs.db, contactIdMap := [], trace := rs.trace })
  rw [h1] at h2
  exact h2

/-- Any account's full pass preserves the pushed-implies-id invariant. -/
theorem runAccount_inv (env : GhlEnv) (a : Nat) (sel : List SelProp)
    (ctp : List (Nat × Contact)) (rs : RunState) (h : propsInv rs.db.properties) :
    propsInv (runAccount env a sel ctp rs).db.properties := by
  simp only [runAccount]
  have h1 : ((ctp.foldl (processContact env a sel)
      { db := rs.db, contactIdMap := [], trace := rs.trace })).db.properties
        = rs.db.properties :=
    foldl_processContact_properties env a sel ctp _
  have h2 := foldl_rel (R := fun l1 l2 => propsInv l1 → propsInv l2)
    (fun _ _ _ f1 f2 h0 => f2 (f1 h0)) (fun _ h0 => h0)
    (fun st : AccState => st.db.properties) (processProperty env a)
    (fun st sp hp => processProperty_inv env a st sp hp) sel
    (ctp.foldl (processContact env a sel)
      { db := rs.db, contactIdMap := [], trace := rs.trace })
  rw [h1] at h2
  exact h2 h

/-- A whole run preserves the pushed-implies-id invariant. -/
theorem pushLeadsForUser_inv (accounts : List Account) (env : GhlEnv)
    (s : UserSettings) (db : DB) (h : propsInv db.properties) :
    propsInv (pushLeadsForUser accounts env s db).db.properties := by
  simp only [pushLeadsForUser]
  split
  · exact h
  · have h2 := foldl_rel (R := fun l1 l2 => propsInv l1 → propsInv l2)
      (fun _ _ _ f1 f2 h0 => f2 (f1 h0)) (fun _ h0 => h0)
      (fun rs : RunState => rs.db.properties)
      (fun rs i => runAccount env i (selectProperties s db)
        (contactsToPush (selectProperties s db)) rs)
      (fun rs i hp => runAccount_inv env i _ _ rs hp)
      (List.range accounts.length) { db := db, trace := [] }
    exact h2 h

/-! ### C1 / C7 concrete scenarios -/

/-- C1 counterexample: after the primary account's pass the property row is
`pushed = true` with `ghlPropertyId = "P0"`, but running the same job with
a secondary account configured ends with `pushed = false` and
`ghlPropertyId = "P1"` — the secondary account's successful 201 creation
re-writes the row with `pushed := (account = primary) = false`, so a
property pushed to the primary account does **not** remain `pushed = true`
regardless of secondary-account outcomes. -/
theorem C1_pushed_overwrite_counterexample :
    cx1Env.createProperty 0 10 = .ok 201 { id := some "P0" }
    ∧ extractGhlId { id := some "P0" } = some "P0"
    ∧ (pushLeadsForUser [cxAccountA] cx1Env cxSettings cx1DB).db.properties
        = [{ cx1Prop with pushed := true, ghlPropertyId := some "P0" }]
    ∧ Event.createPropertyReq 0 10
        ∈ (pushLeadsForUser [cxAccountA, cxAccountB] cx1Env cxSettings cx1DB).trace
    ∧ (pushLeadsForUser [cxAccountA, cxAccountB] cx1Env cxSettings cx1DB).db.properties
        = [{ cx1Prop with pushed := false, ghlPropertyId := some "P1" }] := by
  refine ⟨by decide, by decide, by decide, by decide, by decide⟩

/-- C1 amended: the engine's property write on a 201 with an extractable id
stores the id together with `pushed := (account is primary)` for **every**
account, overwriting earlier values; hence (a) the pushed invariant is
preserved — after a run, every property marked `pushed = true` has a
non-null `ghlPropertyId`, provided the store satisfied it beforehand — and
(b) a non-primary account never switches a `pushed` flag on, so
`pushed = true` is only ever established by the primary account; but a
later secondary-account creation can reset `pushed` to `false` (see the
counterexample), so permanence only holds when no later account recreates
the property — in particular with the shipped single-account list. -/
theorem C1_pushed_invariant_amended :
    (∀ accounts env s db,
      (∀ p ∈ db.properties, p.pushed = true → p.ghlPropertyId.isSome = true) →
      ∀ p ∈ (pushLeadsForUser accounts env s db).db.properties,
        p.pushed = true → p.ghlPropertyId.isSome = true)
    ∧ (∀ env a sel ctp rs, a ≠ 0 →
      List.Forall₂ pushedImp rs.db.properties
        (runAccount env a sel ctp rs).db.properties) := by
  exact ⟨fun accounts env s db h => pushLeadsForUser_inv accounts env s db h,
    fun env a sel ctp rs ha => runAccount_pushedImp env a sel ctp rs ha⟩

/-- C1 amended witness: the invariant holds across the two-account C1 run,
and the secondary pass never switches `pushed` on. -/
theorem C1_pushed_invariant_amended_witness :
    (∀ p ∈ cx1DB.properties, p.pushed = true → p.ghlPropertyId.isSome = true)
    ∧ (∀ p ∈ (pushLeadsForUser [cxAccountA, cxAccountB] cx1Env cxSettings cx1DB).db.properties,
        p.pushed = true → p.ghlPropertyId.isSome = true)
    ∧ (1 : Nat) ≠ 0
    ∧ List.Forall₂ pushedImp cx1DB.properties
        (runAccount cx1Env 1 [] [] { db := cx1DB, trace := [] }).db.properties := by
  refine ⟨by decide, C1_pushed_invariant_amended.1 [cxAccountA, cxAccountB]
      cx1Env cxSettings cx1DB (by decide), by decide,
    ?_⟩
  have h := C1_pushed_invariant_amended.2 cx1Env 1 [] [] { db := cx1DB, trace := [] } (by decide)
  exact h

/-- C7 counterexample: the primary-only run leaves the contact row
untouched, but adding a secondary account changes it — the found-existing
backfill (`if (!contact.ghlContactId)`) is gated on the contact snapshot,
not on the account, so the secondary account's PushContacts loop writes
`ghlContactId := "SEC"` into the local Contact row. -/
theorem C7_backfill_counterexample :
    (pushLeadsForUser [cxAccountA] cx7Env cxSettings cx7DB).db.contacts = [cx7Owner]
    ∧ (pushLeadsForUser [cxAccountA, cxAccountB] cx7Env cxSettings cx7DB).db.contacts
        = [{ cx7Owner with ghlContactId := some "SEC" }] := by
  refine ⟨by decide, by decide⟩

/-- C7 amended: during a non-primary account's pass, each local Contact row
is either unchanged or has exactly its `ghlContactId` rewritten to a
truthy found id by the found-existing backfill (which is guarded by the
snapshot's missing `ghlContactId`, not by the account); in particular
`pushed` and every other contact field — including the `pushed = true` /
`ghlContactId` write of the create branch — are only ever written while
processing the primary account. -/
theorem C7_secondary_contact_frame :
    ∀ env a sel ctp rs, a ≠ 0 →
      List.Forall₂ contactFrame rs.db.contacts
        (runAccount env a sel ctp rs).db.contacts := by
  exact fun env a sel ctp rs ha => runAccount_contacts_frame env a sel ctp rs ha

/-- C7 amended witness: the secondary pass of the C7 scenario relates the
old and new contact tables by `contactFrame`. -/
theorem C7_secondary_contact_frame_witness :
    (1 : Nat) ≠ 0
    ∧ List.Forall₂ contactFrame cx7DB.contacts
        (runAccount cx7Env 1 (selectProperties cxSettings cx7DB)
          (contactsToPush (selectProperties cxSettings cx7DB))
          { db := cx7DB, trace := [] }).db.contacts :=
  ⟨by decide,
   C7_secondary_contact_frame cx7Env 1 (selectProperties cxSettings cx7DB)
     (contactsToPush (selectProperties cxSettings cx7DB))
     { db := cx7DB, trace := [] } (by decide)⟩

/-- `attemptedContacts` distributes over trace concatenation. -/
theorem attemptedContacts_append (l1 l2 : List Event) (b : Nat) :
    attemptedContacts (l1 ++ l2) b = attemptedContacts l1 b ++ attemptedContacts l2 b :=
  List.filterMap_append l1 l2 _

/-- The found-existing branch emits no trace events. -/
theorem contactFoundStep_trace (cid : Nat) (c : Contact) (g : Option String)
    (st : AccState) : (contactFoundStep cid c g st).trace = st.trace := by
  simp only [contactFoundStep]
  repeat' split
  all_goals rfl

/-- The contact-create branch emits no trace events. -/
theorem contactCreateStep_trace (a : Nat) (c : Contact) (o : CreateOutcome)
    (st : AccState) : (contactCreateStep a c o st).trace = st.trace := by
  simp only [contactCreateStep]
  repeat' split
  all_goals rfl

/-- One `processContact` step attempts exactly its own contact, once, for
its own account. -/
theorem processContact_attempts (env : GhlEnv) (a : Nat) (sel : List SelProp)
    (st : AccState) (e : Nat × Contact) (b : Nat) :
    attemptedContacts (processContact env a sel st e).trace b
      = attemptedContacts st.trace b ++ (if a = b then [e.1] else []) := by
  simp only [processContact, emitEvent]
  repeat' split
  all_goals try rw [contactFoundStep_trace]
  all_goals try rw [contactCreateStep_trace]
  all_goals simp_all [attemptedContacts_append, attemptedContacts, List.filterMap_cons]

/-- The found-existing property branch attempts no contact push. -/
theorem propertyExistingStep_attempts (env : GhlEnv) (a : Nat) (p : Property)
    (g : Option String) (st : AccState) (b : Nat) :
    attemptedContacts (propertyExistingStep env a p g st).trace b
      = attemptedContacts st.trace b := by
  simp only [propertyExistingStep, emitEvent, ownerFallbackSearch]
  repeat' split
  all_goals simp [attemptedContacts_append, attemptedContacts, List.filterMap_cons]

/-- The property-create branch attempts no contact push. -/
theorem propertyCreateStep_attempts (a pid : Nat) (g : Option String)
    (o : CreateOutcome) (st : AccState) (b : Nat) :
    attemptedContacts (propertyCreateStep a pid g o st).trace b
      = attemptedContacts st.trace b := by
  simp only [propertyCreateStep, emitEvent]
  repeat' split
  all_goals simp [attemptedContacts_append, attemptedContacts, List.filterMap_cons]

/-- One `processProperty` step attempts no contact push. -/
theorem processProperty_attempts (env : GhlEnv) (a : Nat) (st : AccState)
    (sp : SelProp) (b : Nat) :
    attemptedContacts (processProperty env a st sp).trace b
      = attemptedContacts st.trace b := by
  simp only [processProperty, emitEvent, ownerFallbackSearch]
  repeat' split
  all_goals try rw [propertyExistingStep_attempts]
  all_goals try rw [propertyCreateStep_attempts]
  all_goals simp [attemptedContacts_append, attemptedContacts, List.filterMap_cons]

/-- The contact loop attempts exactly the `contactsToPush` keys, in order,
for its own account. -/
theorem foldl_processContact_attempts (env : GhlEnv) (a : Nat) (sel : List SelProp) (b : Nat) :
    ∀ (ctp : List (Nat × Contact)) (st : AccState),
      attemptedContacts ((ctp.foldl (processContact env a sel) st)).trace b
        = attemptedContacts st.trace b ++ (if a = b then ctp.map Prod.fst else [])
  | [], st => by simp
  | e :: es, st => by
    rw [List.foldl_cons, foldl_processContact_attempts env a sel b es,
      processContact_attempts]
    by_cases hab : a = b <;> simp [hab]

/-- The property loop attempts no contact push. -/
theorem foldl_processProperty_attempts (env : GhlEnv) (a : Nat) (b : Nat) :
    ∀ (sel : List SelProp) (st : AccState),
      attemptedContacts ((sel.foldl (processProperty env a) st)).trace b
        = attemptedContacts st.trace b
  | [], _ => rfl
  | sp :: sps, st => by
    rw [List.foldl_cons, foldl_processProperty_attempts env a b sps,
      processProperty_attempts]

/-- One account pass attempts exactly the `contactsToPush` keys for its own
account index and nothing for any other index. -/
theorem runAccount_attempts (env : GhlEnv) (a : Nat) (sel : List SelProp)
    (ctp : List (Nat × Contact)) (rs : RunState) (b : Nat) :
    attemptedContacts (runAccount env a sel ctp rs).trace b
      = attemptedContacts rs.trace b ++ (if a = b then ctp.map Prod.fst else []) := by
  simp only [runAccount]
  rw [foldl_processProperty_attempts, foldl_processContact_attempts]

/-- Account-indexed attempts of the whole account fold: exactly one pass
per configured account index. -/
theorem foldl_runAccount_attempts (env : GhlEnv) (sel : List SelProp)
    (ctp : List (Nat × Contact)) (b : Nat) :
    ∀ (n : Nat) (rs : RunState),
      attemptedContacts (((List.range n).foldl (fun rs i => runAccount env i sel ctp rs) rs)).trace b
        = attemptedContacts rs.trace b ++ (if b < n then ctp.map Prod.fst else []) := by
  intro n
  induction n with
  | zero => intro rs; simp
  | succ n ih =>
    intro rs
    rw [List.range_succ, List.foldl_append, List.foldl_cons, List.foldl_nil,
      runAccount_attempts, ih]
    by_cases h1 : b < n
    · have h2 : n ≠ b := by omega
      have h3 : b < n + 1 := by omega
      simp [h1, h2, h3]
    · by_cases h2 : n = b
      · have h3 : b < n + 1 := by omega
        simp [h1, h2, h3]
      · have h3 : ¬ b < n + 1 := by omega
        simp [h1, h2, h3]

/-- `mapSet` key list: unchanged when the key exists, else the key is
appended. -/
theorem mapSet_fst (m : List (Nat × Contact)) (k : Nat) (v : Contact) :
    (mapSet m k v).map Prod.fst
      = if m.any (fun e => e.1 = k) then m.map Prod.fst else m.map Prod.fst ++ [k] := by
  simp only [mapSet]
  split
  · rw [List.map_map]
    refine List.map_congr_left (fun e he => ?_)
    by_cases hk : e.1 = k
    · simp [hk]
    · simp [hk]
  · simp

/-- Key membership after `mapSet`. -/
theorem mapSet_fst_mem (m : List (Nat × Contact)) (k k' : Nat) (v : Contact) :
    k' ∈ (mapSet m k v).map Prod.fst ↔ k' ∈ m.map Prod.fst ∨ k' = k := by
  rw [mapSet_fst]
  split
  · rename_i h
    simp only [List.any_eq_true, decide_eq_true_eq] at h
    obtain ⟨e, he, hek⟩ := h
    constructor
    · exact fun hm => Or.inl hm
    · rintro (hm | rfl)
      · exact hm
      · exact hek ▸ List.mem_map_of_mem Prod.fst he
  · simp

/-- `mapSet` preserves key distinctness. -/
theorem mapSet_fst_nodup (m : List (Nat × Contact)) (k : Nat) (v : Contact)
    (h : (m.map Prod.fst).Nodup) : ((mapSet m k v).map Prod.fst).Nodup := by
  rw [mapSet_fst]
  split
  · exact h
  · rename_i hany
    simp only [List.any_eq_true, decide_eq_true_eq] at hany
    push_neg at hany
    refine List.Nodup.append h (List.nodup_singleton k) ?_
    intro x hx hxk
    simp only [List.mem_singleton] at hxk
    subst hxk
    simp only [List.mem_map] at hx
    obtain ⟨e, he, hek⟩ := hx
    exact hany e he hek

/-- Key membership after one `ctpStep`. -/
theorem ctpStep_fst_mem (m : List (Nat × Contact)) (sp : SelProp) (k : Nat) :
    k ∈ (ctpStep m sp).map Prod.fst ↔ k ∈ m.map Prod.fst ∨ ctpCond sp k := by
  simp only [ctpStep]
  split
  · rename_i o oid ho hoid
    split
    · rename_i hc
      rw [mapSet_fst_mem]
      unfold ctpCond
      constructor
      · rintro (hm | rfl)
        · exact Or.inl hm
        · exact Or.inr ⟨hoid, hc.2, o, ho, hc.1⟩
      · rintro (hm | ⟨h1, h2, o', ho', hp⟩)
        · exact Or.inl hm
        · rw [ho] at ho'
          injection ho' with ho'
          subst ho'
          rw [hoid] at h1
          injection h1 with h1
          exact Or.inr h1.symm
    · rename_i hc
      unfold ctpCond
      constructor
      · exact fun hm => Or.inl hm
      · rintro (hm | ⟨h1, h2, o', ho', hp⟩)
        · exact hm
        · rw [ho] at ho'
          injection ho' with ho'
          subst ho'
          rw [hoid] at h1
          injection h1 with h1
          subst h1
          exact absurd ⟨hp, h2⟩ hc
  · rename_i hdef
    unfold ctpCond
    constructor
    · exact fun hm => Or.inl hm
    · rintro (hm | ⟨h1, h2, o', ho', hp⟩)
      · exact hm
      · exact (hdef o' k ho' h1).elim

/-- Key membership of the whole `contactsToPush` fold. -/
theorem contactsToPush_aux_mem (k : Nat) :
    ∀ (sel : List SelProp) (m : List (Nat × Contact)),
      (k ∈ ((sel.foldl ctpStep m)).map Prod.fst)
        ↔ (k ∈ m.map Prod.fst ∨ ∃ sp ∈ sel, ctpCond sp k)
  | [], m => by simp
  | sp :: sps, m => by
    rw [List.foldl_cons, contactsToPush_aux_mem k sps, ctpStep_fst_mem]
    constructor
    · rintro ((hm | hc) | ⟨sp', h1, h2⟩)
      · exact Or.inl hm
      · exact Or.inr ⟨sp, List.mem_cons_self sp sps, hc⟩
      · exact Or.inr ⟨sp', List.mem_cons_of_mem sp h1, h2⟩
    · rintro (hm | ⟨sp', h1, h2⟩)
      · exact Or.inl (Or.inl hm)
      · rcases List.mem_cons.mp h1 with rfl | htl
        · exact Or.inl (Or.inr h2)
        · exact Or.inr ⟨sp', htl, h2⟩

/-- C2 part: membership in the derived contact set — exactly the distinct,
not-yet-pushed owners of selected properties, keyed by `ownerId`. -/
theorem contactsToPush_key_mem (sel : List SelProp) (k : Nat) :
    k ∈ (contactsToPush sel).map Prod.fst ↔ ∃ sp ∈ sel, ctpCond sp k := by
  rw [contactsToPush, contactsToPush_aux_mem]
  simp

/-- `ctpStep` preserves key distinctness. -/
theorem ctpStep_fst_nodup (m : List (Nat × Contact)) (sp : SelProp)
    (h : (m.map Prod.fst).Nodup) : ((ctpStep m sp).map Prod.fst).Nodup := by
  simp only [ctpStep]
  split
  · split
    · exact mapSet_fst_nodup _ _ _ h
    · exact h
  · exact h

/-- C2 part: the derived contact keys are distinct — one entry per owner,
however many selected properties it owns. -/
theorem contactsToPush_keys_nodup (sel : List SelProp) :
    ((contactsToPush sel).map Prod.fst).Nodup := by
  rw [contactsToPush]
  have haux : ∀ (l : List SelProp) (m : List (Nat × Contact)),
      (m.map Prod.fst).Nodup → ((l.foldl ctpStep m).map Prod.fst).Nodup := by
    intro l
    induction l with
    | nil => exact fun m hm => hm
    | cons sp sps ih =>
      intro m hm
      rw [List.foldl_cons]
      exact ih _ (ctpStep_fst_nodup m sp hm)
  exact haux sel [] (by simp)

/-- Every `contactsToPush` value is the contact row with the entry's key as
its id (owners are included by a `find?` on the id). -/
theorem contactsToPush_entry_id (sel : List SelProp)
    (hsel : ∀ sp ∈ sel, ∀ o, sp.owner = some o → o.id = sp.prop.ownerId.getD 0) :
    ∀ e ∈ contactsToPush sel, e.2.id = e.1 := by
  rw [contactsToPush]
  have haux : ∀ (l : List SelProp) (m : List (Nat × Contact)),
      (∀ sp ∈ l, ∀ o, sp.owner = some o → o.id = sp.prop.ownerId.getD 0) →
      (∀ e ∈ m, e.2.id = e.1) → ∀ e ∈ l.foldl ctpStep m, e.2.id = e.1 := by
    intro l
    induction l with
    | nil => exact fun m _ hm => hm
    | cons sp sps ih =>
      intro m hl hm
      rw [List.foldl_cons]
      refine ih _ (fun sp' h' => hl sp' (List.mem_cons_of_mem sp h')) ?_
      simp only [ctpStep]
      split
      · rename_i o oid ho hoid
        split
        · intro e he
          simp only [mapSet] at he
          split at he
          · simp only [List.mem_map] at he
            obtain ⟨e', he', rfl⟩ := he
            by_cases hk : e'.1 = oid
            · rw [if_pos hk]
              have := hl sp (List.mem_cons_self sp sps) o ho
              rw [hoid] at this
              exact this
            · rw [if_neg hk]
              exact hm e' he'
          · rcases List.mem_append.mp he with h1 | h1
            · exact hm e h1
            · simp only [List.mem_singleton] at h1
              subst h1
              have := hl sp (List.mem_cons_self sp sps) o ho
              rw [hoid] at this
              exact this
        · exact hm
      · exact hm
  exact haux sel [] hsel (by simp)

/-- Owners included by `selectProperties` carry the `ownerId` as their id. -/
theorem selectProperties_owner_id (s : UserSettings) (db : DB) :
    ∀ sp ∈ selectProperties s db, ∀ o, sp.owner = some o →
      o.id = sp.prop.ownerId.getD 0 := by
  intro sp hsp o ho
  simp only [selectProperties, List.mem_map] at hsp
  obtain ⟨p, hp, rfl⟩ := hsp
  simp only at ho ⊢
  cases hoid : p.ownerId with
  | none => rw [hoid] at ho; simp at ho
  | some oid =>
    rw [hoid] at ho
    simp only [Option.bind_some, Option.getD_some] at ho ⊢
    have := List.find?_some ho
    simpa using this

/-- A row-scoped contact update leaves rows with other ids in place. -/
theorem updateContact_mem_ne (db : DB) (cid : Nat) (f : Contact → Contact)
    (x : Contact) (hx : x ∈ db.contacts) (hne : x.id ≠ cid) :
    x ∈ (updateContact db cid f).contacts := by
  simp only [updateContact]
  exact List.mem_map.mpr ⟨x, hx, by rw [if_neg hne]⟩

/-- The found-existing branch writes only the entry's key row. -/
theorem contactFoundStep_untouched (cid : Nat) (c : Contact) (g : Option String)
    (db : DB) (m : List (Nat × Option String)) (tr : List Event)
    (x : Contact) (hx : x ∈ db.contacts) (hne : x.id ≠ cid) :
    x ∈ (contactFoundStep cid c g ⟨db, m, tr⟩).db.contacts := by
  simp only [contactFoundStep]
  split
  · exact updateContact_mem_ne db cid _ x hx hne
  · exact hx

/-- The create branch writes only the snapshot contact's own row. -/
theorem contactCreateStep_untouched (a : Nat) (c : Contact) (o : CreateOutcome)
    (db : DB) (m : List (Nat × Option String)) (tr : List Event)
    (x : Contact) (hx : x ∈ db.contacts) (hne : x.id ≠ c.id) :
    x ∈ (contactCreateStep a c o ⟨db, m, tr⟩).db.contacts := by
  simp only [contactCreateStep]
  repeat' split
  all_goals first
    | exact hx
    | exact updateContact_mem_ne db c.id _ x hx hne

/-- One `processContact` step touches no contact row outside the entry's
key and the snapshot's id. -/
theorem processContact_untouched (env : GhlEnv) (a : Nat) (sel : List SelProp)
    (st : AccState) (e : Nat × Contact) (x : Contact) (hx : x ∈ st.db.contacts)
    (h1 : x.id ≠ e.1) (h2 : x.id ≠ e.2.id) :
    x ∈ (processContact env a sel st e).db.contacts := by
  simp only [processContact, emitEvent]
  repeat' split
  all_goals first
    | exact hx
    | exact contactFoundStep_untouched _ _ _ _ _ _ x hx h1
    | exact contactCreateStep_untouched _ _ _ _ _ _ x hx h2

/-- The contact loop touches no row outside the `contactsToPush` keys and
snapshot ids. -/
theorem foldl_processContact_untouched (env : GhlEnv) (a : Nat) (sel : List SelProp)
    (x : Contact) :
    ∀ (ctp : List (Nat × Contact)) (st : AccState),
      (∀ e ∈ ctp, x.id ≠ e.1 ∧ x.id ≠ e.2.id) → x ∈ st.db.contacts →
      x ∈ ((ctp.foldl (processContact env a sel) st)).db.contacts
  | [], _, _, hx => hx
  | e :: es, st, h, hx => by
    rw [List.foldl_cons]
    refine foldl_processContact_untouched env a sel x es _
      (fun e' he' => h e' (List.mem_cons_of_mem e he')) ?_
    obtain ⟨h1, h2⟩ := h e (List.mem_cons_self e es)
    exact processContact_untouched env a sel st e x hx h1 h2

/-- One account pass touches no contact row outside the `contactsToPush`
keys and snapshot ids. -/
theorem runAccount_untouched (env : GhlEnv) (a : Nat) (sel : List SelProp)
    (ctp : List (Nat × Contact)) (rs : RunState) (x : Contact)
    (h : ∀ e ∈ ctp, x.id ≠ e.1 ∧ x.id ≠ e.2.id) (hx : x ∈ rs.db.contacts) :
    x ∈ (runAccount env a sel ctp rs).db.contacts := by
  simp only [runAccount]
  rw [foldl_processProperty_contacts]
  exact foldl_processContact_untouched env a sel x ctp
    { db := rs.db, contactIdMap := [], trace := rs.trace } h hx

/-- A whole run touches no contact row outside the derived contact set. -/
theorem pushLeadsForUser_untouched (accounts : List Account) (env : GhlEnv)
    (s : UserSettings) (db : DB) (x : Contact) (hx : x ∈ db.contacts)
    (h : ∀ e ∈ contactsToPush (selectProperties s db), x.id ≠ e.1 ∧ x.id ≠ e.2.id) :
    x ∈ (pushLeadsForUser accounts env s db).db.contacts := by
  simp only [pushLeadsForUser]
  split
  · exact hx
  · have h2 := foldl_rel (R := fun l1 l2 : List Contact => x ∈ l1 → x ∈ l2)
      (fun _ _ _ f1 f2 h0 => f2 (f1 h0)) (fun _ h0 => h0)
      (fun rs : RunState => rs.db.contacts)
      (fun rs i => runAccount env i (selectProperties s db)
        (contactsToPush (selectProperties s db)) rs)
      (fun rs i hmem => runAccount_untouched env i _ _ rs x h hmem)
      (List.range accounts.length) { db := db, trace := [] }
    exact h2 hx

/-- C2: for every job, the push-attempted contact set equals the set of
distinct, not-yet-pushed owning contacts of the selected properties, keyed
by `ownerId`: the derived keys are distinct, a key appears iff a selected
property names it as a truthy `ownerId` with an unpushed included owner,
each configured account attempts exactly that key list (so a contact
owning several selected properties is attempted at most once per account,
not once per property), and a contact owning no selected property is
never touched (no attempt and no row write). -/
theorem C2_contact_fanout :
    (∀ sel : List SelProp, ((contactsToPush sel).map Prod.fst).Nodup)
    ∧ (∀ (sel : List SelProp) (k : Nat),
        k ∈ (contactsToPush sel).map Prod.fst ↔
          ∃ sp ∈ sel, sp.prop.ownerId = some k ∧ k ≠ 0
            ∧ ∃ o, sp.owner = some o ∧ o.pushed = false)
    ∧ (∀ accounts env s db b, b < accounts.length →
        attemptedContacts (pushLeadsForUser accounts env s db).trace b
          = (contactsToPush (selectProperties s db)).map Prod.fst)
    ∧ (∀ accounts env s db (x : Contact), x ∈ db.contacts →
        x.id ∉ (contactsToPush (selectProperties s db)).map Prod.fst →
        x ∈ (pushLeadsForUser accounts env s db).db.contacts) := by
  refine ⟨contactsToPush_keys_nodup, ?_, ?_, ?_⟩
  · intro sel k
    rw [contactsToPush_key_mem]
    unfold ctpCond
    rfl
  · intro accounts env s db b hb
    simp only [pushLeadsForUser]
    split
    · rename_i hlen
      have hsel : selectProperties s db = [] := List.length_eq_zero.mp hlen
      rw [hsel]
      simp [attemptedContacts, contactsToPush]
    · rw [foldl_runAccount_attempts]
      simp only [attemptedContacts, List.filterMap_nil, List.nil_append]
      rw [if_pos hb]
  · intro accounts env s db x hx hnot
    refine pushLeadsForUser_untouched accounts env s db x hx (fun e he => ?_)
    have hkey : e.1 ∈ (contactsToPush (selectProperties s db)).map Prod.fst :=
      List.mem_map_of_mem Prod.fst he
    have hid : e.2.id = e.1 :=
      contactsToPush_entry_id (selectProperties s db)
        (selectProperties_owner_id s db) e he
    constructor
    · intro hxe
      exact hnot (hxe ▸ hkey)
    · intro hxe
      rw [hid] at hxe
      exact hnot (hxe ▸ hkey)

/-- C2 witness: in the C7 scenario the primary account attempts exactly the
derived key list. -/
theorem C2_contact_fanout_witness :
    (0 : Nat) < List.length [cxAccountA]
    ∧ attemptedContacts (pushLeadsForUser [cxAccountA] cx7Env cxSettings cx7DB).trace 0
        = (contactsToPush (selectProperties cxSettings cx7DB)).map Prod.fst :=
  ⟨by decide, C2_contact_fanout.2.2.1 [cxAccountA] cx7Env cxSettings cx7DB 0 (by decide)⟩

/-- Length of a packed character list. -/
theorem strMk_length (l : List Char) : (String.mk l).length = l.length := rfl

/-- An own hit of an object-literal lookup comes from the entry table. -/
theorem jsRecordGet_own {α : Type} (entries : List (String × α)) (k : String) (v : α)
    (h : jsRecordGet entries k = .own v) : ∃ e ∈ entries, e.2 = v := by
  simp only [jsRecordGet] at h
  split at h
  · rename_i e he
    injection h with h
    exact ⟨e, List.mem_of_find?_eq_some he, h⟩
  · split at h <;> cases h

/-- A prototype-chain hit names an `Object.prototype` member and equals the
lookup key. -/
theorem jsRecordGet_protoMember {α : Type} (entries : List (String × α)) (k n : String)
    (h : jsRecordGet entries k = .protoMember n) : n = k ∧ n ∈ objectProtoKeys := by
  simp only [jsRecordGet] at h
  split at h
  · cases h
  · split at h
    · rename_i hmem
      injection h with h
      subst h
      exact ⟨rfl, hmem⟩
    · cases h

/-- Every alias-table value is a two-letter code. -/
theorem countryAliases_length :
    ∀ e ∈ (countryAliases ++ countryAliasesPunct), e.2.length = 2 := by decide

/-- Every alpha-3 table value is a two-letter code. -/
theorem alpha3_length : ∀ e ∈ ALPHA3_TO_ALPHA2, e.2.length = 2 := by decide

/-- The alpha-3 word step stays in the country range when its fallback
does. -/
theorem countryWordAlpha3_range (kw : String) (next : LookupOut)
    (h : inCountryRange next) : inCountryRange (countryWordAlpha3 kw next) := by
  simp only [countryWordAlpha3]
  split
  · rename_i c hget
    split
    · exact h
    · obtain ⟨e, he, h2⟩ := jsRecordGet_own _ _ _ hget
      exact Or.inr (Or.inl ⟨c, rfl, h2 ▸ alpha3_length e he⟩)
  · rename_i n hget
    exact Or.inr (Or.inr ⟨n, rfl, (jsRecordGet_protoMember _ _ _ hget).2⟩)
  · exact h

/-- The word-by-word fallback stays in the country range. -/
theorem countryWordLookup_range : ∀ l, inCountryRange (countryWordLookup l) := by
  intro l
  induction l with
  | nil => exact Or.inl rfl
  | cons kw rest ih =>
    simp only [countryWordLookup]
    split
    · rename_i c hget
      split
      · exact countryWordAlpha3_range kw _ ih
      · obtain ⟨e, he, h2⟩ := jsRecordGet_own _ _ _ hget
        exact Or.inr (Or.inl ⟨c, rfl, h2 ▸ countryAliases_length e he⟩)
    · rename_i n hget
      exact Or.inr (Or.inr ⟨n, rfl, (jsRecordGet_protoMember _ _ _ hget).2⟩)
    · exact countryWordAlpha3_range kw _ ih

/-- `normalizeCountry` returns `null`, a two-letter code, or a leaked
`Object.prototype` member. -/
theorem normalizeCountry_range (v : Option String) : inCountryRange (normalizeCountry v) := by
  match v with
  | none => exact Or.inl rfl
  | some raw =>
    simp only [normalizeCountry]
    split
    · exact Or.inl rfl
    · split
      · rename_i hlen
        exact Or.inr (Or.inl ⟨_, rfl, by rw [strMk_length, List.length_map]; exact hlen⟩)
      · split
        · rename_i r hstep
          split at hstep
          · split at hstep
            · rename_i c hget
              split at hstep
              · cases hstep
              · injection hstep with hstep
                subst hstep
                obtain ⟨e, he, h2⟩ := jsRecordGet_own _ _ _ hget
                exact Or.inr (Or.inl ⟨c, rfl, h2 ▸ alpha3_length e he⟩)
            · rename_i n hget
              injection hstep with hstep
              subst hstep
              exact Or.inr (Or.inr ⟨n, rfl, (jsRecordGet_protoMember _ _ _ hget).2⟩)
            · cases hstep
          · cases hstep
        · split
          · rename_i c hget
            split
            · exact countryWordLookup_range _
            · obtain ⟨e, he, h2⟩ := jsRecordGet_own _ _ _ hget
              exact Or.inr (Or.inl ⟨c, rfl, h2 ▸ countryAliases_length e he⟩)
          · rename_i n hget
            exact Or.inr (Or.inr ⟨n, rfl, (jsRecordGet_protoMember _ _ _ hget).2⟩)
          · exact countryWordLookup_range _

/-- The enumerated normalizers stay in their declared output domains:
helper lemma for the property-type table. -/
theorem propertyTypeMappings_range :
    ∀ e ∈ propertyTypeMappings,
      e.2 = none ∨ e.2 = some "single_family" ∨ e.2 = some "town_home"
        ∨ e.2 = some "condominium" ∨ e.2 = some "duplex" ∨ e.2 = some "triplex"
        ∨ e.2 = some "quadplex" := by decide

/-- Parking-table values are the destination's canonical vocabulary. -/
theorem parkingMapping_range :
    ∀ e ∈ parkingMapping,
      e.2 ∈ (["No Parking", "Garage - Attached", "Garage - Detached", "Driveway",
        "On Street", "Off Street", "Parking Lot", "Carport", "Other"] : List String) := by
  decide

/-- `normalizePropertyType` returns `null`, a canonical property type, or a
leaked `Object.prototype` member; a leak happens only when the trimmed
lower-cased input is an `Object.prototype` member name. -/
theorem normalizePropertyType_range (v : Option String) :
    (normalizePropertyType v = .nullish
      ∨ (∃ s, normalizePropertyType v = .str s
          ∧ s ∈ (["single_family", "town_home", "condominium", "duplex",
              "triplex", "quadplex"] : List String))
      ∨ (∃ n ∈ objectProtoKeys, normalizePropertyType v = .protoLeak n))
    ∧ (strToLower (jsTrim (v.getD "")) ∉ objectProtoKeys
        → ∀ n, normalizePropertyType v ≠ .protoLeak n) := by
  constructor
  · simp only [normalizePropertyType]
    split
    · exact Or.inl rfl
    · split
      · rename_i s hget
        obtain ⟨e, he, h2⟩ := jsRecordGet_own _ _ _ hget
        refine Or.inr (Or.inl ⟨s, rfl, ?_⟩)
        rcases propertyTypeMappings_range e he with h | h | h | h | h | h | h <;>
          rw [h] at h2 <;>
          first
            | exact Option.noConfusion h2
            | (injection h2 with h2; subst h2; decide)
      · exact Or.inl rfl
      · rename_i n hget
        exact Or.inr (Or.inr ⟨n, (jsRecordGet_protoMember _ _ _ hget).2, rfl⟩)
      · exact Or.inl rfl
  · intro hkey n
    simp only [normalizePropertyType]
    split
    · rintro ⟨⟩
    · split
      · rintro ⟨⟩
      · rintro ⟨⟩
      · rename_i m hget
        obtain ⟨hm, hmem⟩ := jsRecordGet_protoMember _ _ _ hget
        exact absurd (hm ▸ hmem) hkey
      · rintro ⟨⟩

/-- `parkingLookup` returns a canonical parking value or a leaked
`Object.prototype` member; a leak happens only when the raw parking key is
an `Object.prototype` member name. -/
theorem parkingLookup_range (v : Option String) :
    ((∃ s, parkingLookup v = .str s
        ∧ s ∈ (["No Parking", "Garage - Attached", "Garage - Detached", "Driveway",
            "On Street", "Off Street", "Parking Lot", "Carport", "Other"] : List String))
      ∨ (∃ n ∈ objectProtoKeys, parkingLookup v = .protoLeak n))
    ∧ (v.getD "" ∉ objectProtoKeys → ∀ n, parkingLookup v ≠ .protoLeak n) := by
  constructor
  · simp only [parkingLookup]
    split
    · rename_i s hget
      obtain ⟨e, he, h2⟩ := jsRecordGet_own _ _ _ hget
      exact Or.inl ⟨s, rfl, h2 ▸ parkingMapping_range e he⟩
    · rename_i n hget
      exact Or.inr ⟨n, (jsRecordGet_protoMember _ _ _ hget).2, rfl⟩
    · exact Or.inl ⟨"Other", rfl, by decide⟩
  · intro hkey n
    simp only [parkingLookup]
    split
    · rintro ⟨⟩
    · rename_i m hget
      obtain ⟨hm, hmem⟩ := jsRecordGet_protoMember _ _ _ hget
      exact absurd (hm ▸ hmem) hkey
    · rintro ⟨⟩

/-- `buildTags` always returns a non-empty tag list (the marker tag is
guaranteed present). -/
theorem buildTags_ne (i e : TagSource) (t : String) :
    ∃ l, buildTags i e t = some l ∧ l ≠ [] := by
  simp only [buildTags]
  split
  · rename_i hany
    split
    · rename_i hlen
      exact ⟨_, rfl, fun h0 => hlen (by rw [h0]; rfl)⟩
    · rename_i hlen
      exfalso
      apply hlen
      simp only [List.length_map, ne_eq]
      intro h0
      rw [List.length_eq_zero.mp h0] at hany
      simp at hany
  · rename_i hany
    split
    · rename_i hlen
      exact ⟨_, rfl, fun h0 => hlen (by rw [h0]; rfl)⟩
    · rename_i hlen
      exfalso
      apply hlen
      simp

/-- The normalizers that index no object literal are total and stay within
their declared output domains: `toNumber`/`toFloat` strip comma thousands
separators and never return `NaN` — non-numeric input gives `null`; the
if-chain categorical normalizers only produce their enumerated
vocabularies (or `null`/`undefined`); `normalizePostalCode` rejects
malformed US ZIPs and keeps ZIP+4; `buildTags` always returns a non-empty
list. -/
theorem normalizer_ranges :
    (∀ v n, toNumber v = some n → n.isNaN = false)
    ∧ (∀ v n, toFloat v = some n → n.isNaN = false)
    ∧ toNumber (some (.inl "1,234")) = some (.fin 1234 0)
    ∧ toNumber (some (.inl "abc")) = none
    ∧ toFloat (some (.inl "1,234.5")) = some (.fin 12345 1)
    ∧ toFloat (some (.inl "abc")) = none
    ∧ (∀ v, normalizeYesNo v = some "Yes" ∨ normalizeYesNo v = some "No"
        ∨ normalizeYesNo v = none)
    ∧ (∀ v, normalizeWorkingWithRealtor v = "No I am Not"
        ∨ normalizeWorkingWithRealtor v = "Yes, I am")
    ∧ (∀ v, normalizeMLSStatus v = some "FALSE" ∨ normalizeMLSStatus v = some "TRUE")
    ∧ (∀ v, normalizeLiquidAssets v = some "Over $20k" ∨ normalizeLiquidAssets v = none)
    ∧ (∀ v, normalizeHouseholdIncome v = none
        ∨ normalizeHouseholdIncome v = some "Below $65k"
        ∨ normalizeHouseholdIncome v = some "65k - 90k"
        ∨ normalizeHouseholdIncome v = some "Above 90k")
    ∧ (∀ v, normalizeLoanType v ∈ ([some "conventional", some "arm", some "fha",
        some "usda", some "va", some "building_or_construction",
        some "not_available", none] : List (Option String)))
    ∧ (∀ v, normalizedLoanType v ∈ ([some "Conventional", some "FHA", some "VA",
        some "USDA", some "Jumbo", none] : List (Option String)))
    ∧ (∀ v, normalizeLeadSource v = none
        ∨ ∃ o ∈ leadSourceOptions, normalizeLeadSource v = some o)
    ∧ (∀ v, normalizeFreeAndClear v = some "TRUE" ∨ normalizeFreeAndClear v = some "FALSE"
        ∨ normalizeFreeAndClear v = none)
    ∧ (∀ i e t, ∃ l, buildTags i e t = some l ∧ l ≠ [])
    ∧ normalizePostalCode (some "1234") "US" = none
    ∧ normalizePostalCode (some "12345-6789") "US" = some "12345-6789" := by
  refine ⟨?_, ?_, by decide, by decide, by decide, by decide, ?_, ?_, ?_, ?_, ?_, ?_, ?_,
    ?_, ?_, buildTags_ne, by decide, by decide⟩
  · intro v n h
    match v with
    | none => exact absurd h (by simp [toNumber])
    | some (.inl s) =>
      simp only [toNumber] at h
      split at h
      · exact absurd h (by simp)
      · split at h
        · exact absurd h (by simp)
        · rename_i hnan
          injection h with h
          subst h
          simpa using hnan
    | some (.inr m) =>
      simp only [toNumber] at h
      split at h
      · exact absurd h (by simp)
      · rename_i hnan
        injection h with h
        subst h
        simpa using hnan
  · intro v n h
    match v with
    | none => exact absurd h (by simp [toFloat])
    | some (.inl s) =>
      simp only [toFloat] at h
      split at h
      · exact absurd h (by simp)
      · split at h
        · exact absurd h (by simp)
        · rename_i hnan
          injection h with h
          subst h
          simpa using hnan
    | some (.inr m) =>
      simp only [toFloat] at h
      split at h
      · exact absurd h (by simp)
      · rename_i hnan
        injection h with h
        subst h
        simpa using hnan
  · intro v
    simp only [normalizeYesNo]
    repeat' split
    all_goals simp
  · intro v
    simp only [normalizeWorkingWithRealtor]
    repeat' split
    all_goals simp
  · intro v
    simp only [normalizeMLSStatus]
    repeat' split
    all_goals simp
  · intro v
    simp only [normalizeLiquidAssets]
    repeat' split
    all_goals simp
  · intro v
    simp only [normalizeHouseholdIncome]
    repeat' split
    all_goals simp
  · intro v
    simp only [normalizeLoanType]
    repeat' split
    all_goals simp
  · intro v
    simp only [normalizedLoanType]
    repeat' split
    all_goals simp
  · intro v
    simp only [normalizeLeadSource]
    split
    · exact Or.inl rfl
    · cases hf : leadSourceOptions.find?
        (fun opt => strToLower opt = strToLower (v.getD "")) with
      | none => exact Or.inl rfl
      | some o => exact Or.inr ⟨o, List.mem_of_find?_eq_some hf, rfl⟩
  · intro v
    simp only [normalizeFreeAndClear]
    repeat' split
    all_goals simp

/-- C9: the claim that every field normalizer returns a value inside its
declared output domain fails on the code.  `normalizePropertyType`,
`normalizeCountry` and the engine's parking lookup index plain object
literals, which inherit from `Object.prototype`: `mappings[value] ?? null`
(src/lib/helper.ts), `if (ALIASES[key]) return ALIASES[key]`
(normalizeCountry), and `parkingMapping[property.parkingType ?? ""] ??
"Other"` (the delivery engine).  For a key that is an `Object.prototype`
member name the lookup yields the inherited member — a function, or the
prototype object for `__proto__` — which is truthy and neither `null` nor
`undefined`, so it escapes the `??` fallbacks and the truthiness guard and
is returned: a value outside the declared `string | null` domains.  The
declared TypeScript return types and the explicit miss fallbacks show the
claim matches the intent, so the prototype-chain leak is a slip in the
code.  The embedding marks such results `protoLeak`; this theorem
evaluates the three normalizers at the failing inputs.  The property-type
and country keys are lower-cased first, so `"constructor"` and
`"__proto__"` leak there (also through the word-by-word country fallback);
the parking key is used verbatim, so every exact-case member name leaks.
The final conjuncts contrast ordinary inputs, which stay in-domain. -/
theorem C9_proto_leak :
    normalizePropertyType (some "constructor") = .protoLeak "constructor"
    ∧ normalizePropertyType (some " Constructor ") = .protoLeak "constructor"
    ∧ normalizePropertyType (some "__proto__") = .protoLeak "__proto__"
    ∧ normalizeCountry (some "constructor") = .protoLeak "constructor"
    ∧ normalizeCountry (some "__proto__") = .protoLeak "__proto__"
    ∧ normalizeCountry (some "the constructor") = .protoLeak "constructor"
    ∧ parkingLookup (some "constructor") = .protoLeak "constructor"
    ∧ parkingLookup (some "hasOwnProperty") = .protoLeak "hasOwnProperty"
    ∧ parkingLookup (some "toString") = .protoLeak "toString"
    ∧ normalizePropertyType (some "condo") = .str "condominium"
    ∧ normalizeCountry (some "usa") = .str "US"
    ∧ parkingLookup (some "Driveway") = .str "Driveway" := by decide

end LeadDelivery
